import Mathlib

/-!
# Verification of the LegalContractAI pipeline core

Shallow embedding of the pipeline/orchestration core of the repository
(`src/backend/app`): the clause segmenter, the risk classifier, the risk
aggregation stage, the rate limiter, the hybrid LLM failover dispatcher,
the drafting orchestrator with its stage processors, the jurisdiction
resolver, and the compliance reasoning stage.

Python strings are modelled as `List Char` (`Str`), with the Python string
methods used by the code (`strip`, `lower`, `upper`, `split`, `in`,
`startswith`, ...) re-implemented over `List Char`.  External services
(the LLM providers, `json.loads`, the monotonic clock) are modelled as
oracle parameters: the code under verification never inspects them beyond
the values they return.  Python floats in the rate limiter are modelled as
exact rationals (`ℚ`); the claims about the rate limiter concern its
control flow and token accounting, which are arithmetic-identical.
`datetime.now()` timestamps attached to audit-log entries are environment
input that no code path reads back; audit entries are modelled by their
`agent`/`action`/`details` fields.
-/

set_option maxRecDepth 8192

namespace LegalContractAI

/-- Python strings, modelled as lists of characters. -/
abbrev Str := List Char

/-- Shorthand to turn a Lean string literal into a `Str`. -/
def lit (s : String) : Str := s.data

/-- The characters Python's `str.strip()` removes (ASCII whitespace;
the source texts are ASCII). -/
def isPySpace (c : Char) : Bool :=
  c = ' ' || c = '\t' || c = '\n' || c = '\r' || c = '\x0b' || c = '\x0c'

/-- Python `str.lstrip()` (no argument): drop leading whitespace. -/
def pyLStrip (s : Str) : Str := s.dropWhile isPySpace

/-- Python `str.strip()` (no argument): drop leading and trailing whitespace. -/
def pyStrip (s : Str) : Str :=
  ((s.dropWhile isPySpace).reverse.dropWhile isPySpace).reverse

/-- ASCII lower-casing of one character, as Python `str.lower()` does on
ASCII text. -/
def toLowerChar (c : Char) : Char :=
  if 'A' ≤ c ∧ c ≤ 'Z' then Char.ofNat (c.toNat + 32) else c

/-- ASCII upper-casing of one character, as Python `str.upper()` does on
ASCII text. -/
def toUpperChar (c : Char) : Char :=
  if 'a' ≤ c ∧ c ≤ 'z' then Char.ofNat (c.toNat - 32) else c

/-- Python `str.lower()`. -/
def pyLower (s : Str) : Str := s.map toLowerChar

/-- Python `str.upper()`. -/
def pyUpper (s : Str) : Str := s.map toUpperChar

/-- Python's `needle in hay` substring test. -/
def containsSub (hay needle : Str) : Bool :=
  if needle.isPrefixOf hay then true
  else match hay with
    | [] => false
    | _ :: t => containsSub t needle

/-- Python `sep.join(parts)`. -/
def pyJoin (sep : Str) (parts : List Str) : Str := List.intercalate sep parts

/-- The worker of `pySplitSub`, structurally recursive on a fuel bound
so that it reduces in the kernel; with `fuel ≥ s.length` the zero-fuel
case is unreachable (the scanned string shrinks by at least one
character per step). -/
def pySplitFuel (c : Char) (cs : Str) : Nat → Str → List Str
  | _, [] => [[]]
  | 0, s => [s]
  | fuel + 1, hd :: tl =>
    if (c :: cs).isPrefixOf (hd :: tl) then
      [] :: pySplitFuel c cs fuel (tl.drop cs.length)
    else
      match pySplitFuel c cs fuel tl with
      | [] => [[hd]]
      | p :: ps => (hd :: p) :: ps

/-- Python `s.split(sep)` for a non-empty separator `c :: cs`
(non-overlapping, left to right, keeps empty pieces). -/
def pySplitSub (c : Char) (cs : Str) (s : Str) : List Str :=
  pySplitFuel c cs s.length s

/-- Python `s.split('\n')`. -/
def splitNl (s : Str) : List Str := pySplitSub '\n' [] s

/-- Everything after the first `'\n'` (Python `s.split('\n', 1)[1]`),
paired with the part before it; `none` if `s` has no newline. -/
def splitFirstNl (s : Str) : Option (Str × Str) :=
  match s with
  | [] => none
  | '\n' :: t => some ([], t)
  | c :: t => (splitFirstNl t).map (fun p => (c :: p.1, p.2))

/-! ## Clause Segmenter (`app/agents/clause_agent.py`, class `ClauseAgent`)

The five splitting strategies of `_split_clauses` use `re.finditer` with
flags `re.MULTILINE | re.DOTALL`.  In each of the three regex strategies
the lazy `.+?` body stops at the first position where the lookahead
succeeds, and with `re.MULTILINE` the `$` alternative of each lookahead
already matches at the end of the starting line; so every match is the
remainder of one line whose start matches the strategy's prefix pattern
(`match.group(1)` = that line, to which `.strip()` is then applied).
We model the strategies accordingly, as filters over the `'\n'`-split
lines of the (already line-stripped) preprocessed text.  The corner case
where the prefix's `\s+` would swallow the newline of a marker line that
has no same-line content (e.g. a line consisting of `1.` alone) is not
modelled. -/

/-- `ClauseAgent.MIN_CLAUSE_LENGTH`. -/
def MIN_CLAUSE_LENGTH : Nat := 20

/-- `ClauseAgent.MAX_CLAUSES`. -/
def MAX_CLAUSES : Nat := 200

/-- `'\r\n' -> '\n'` (Python `text.replace('\r\n', '\n')`). -/
def replaceCRLF : Str → Str
  | '\r' :: '\n' :: rest => '\n' :: replaceCRLF rest
  | c :: rest => c :: replaceCRLF rest
  | [] => []

/-- `'\r' -> '\n'` (Python `text.replace('\r', '\n')`). -/
def replaceCR (s : Str) : Str := s.map (fun c => if c = '\r' then '\n' else c)

/-- `dropWhile` never lengthens a list (used for termination below). -/
theorem dropWhile_len_le {α : Type} (p : α → Bool) :
    ∀ l : List α, (l.dropWhile p).length ≤ l.length := by
  intro l
  induction l with
  | nil => simp [List.dropWhile]
  | cons a t ih =>
    by_cases h : p a = true
    · simp [List.dropWhile, h]; omega
    · simp [List.dropWhile, h]

mutual

/-- `re.sub(r'\n{3,}', '\n\n', text)`: collapse runs of 3 or more
newlines to exactly two (after emitting two newlines, `collapseSkip`
swallows the rest of the run). -/
def collapseNewlines : Str → Str
  | '\n' :: '\n' :: rest => '\n' :: '\n' :: collapseSkip rest
  | c :: rest => c :: collapseNewlines rest
  | [] => []

/-- Skip the remainder of a newline run, then resume collapsing. -/
def collapseSkip : Str → Str
  | '\n' :: rest => collapseSkip rest
  | c :: rest => c :: collapseNewlines rest
  | [] => []

end

/-- `ClauseAgent._preprocess_text`: normalize line breaks, collapse 3+
newlines to 2, strip each line, strip the whole text. -/
def preprocessText (text : Str) : Str :=
  let text := replaceCR (replaceCRLF text)
  let text := collapseNewlines text
  let text := pyJoin (lit "\n") ((splitNl text).map pyStrip)
  pyStrip text

/-- After a dot-digit has been read: consume the remaining digits of
the group, then a following `.digit` starts the next group. -/
def eatDigits : Str → Str
  | '.' :: c :: rest => if c.isDigit then eatDigits rest else '.' :: c :: rest
  | c :: rest => if c.isDigit then eatDigits rest else c :: rest
  | [] => []

/-- The `(\.\d+)*` part of the numbered-section prefix: repeatedly
consume a dot followed by at least one digit. -/
def eatDotDigitGroups : Str → Str
  | '.' :: c :: rest => if c.isDigit then eatDigits rest else '.' :: c :: rest
  | s => s

/-- Strategy 1 line test, from `r'\d+(?:\.\d+)*\.?\s+' + content`:
digits, dot-digit groups, an optional dot, at least one whitespace
character, and at least one further character. -/
def isNumberedLine (l : Str) : Bool :=
  let ds := l.takeWhile Char.isDigit
  if ds.isEmpty then false
  else
    let r := eatDotDigitGroups (l.dropWhile Char.isDigit)
    let r := match r with
      | '.' :: t => t
      | t => t
    let ws := r.takeWhile isPySpace
    !ws.isEmpty && !(r.dropWhile isPySpace).isEmpty

/-- Strategy 2 line test, from `r'[A-Z]\.?\s+' + content`: one capital
letter, an optional dot, at least one whitespace character, content. -/
def isLetteredLine (l : Str) : Bool :=
  match l with
  | c :: rest =>
    if 'A' ≤ c ∧ c ≤ 'Z' then
      let body := match rest with
        | '.' :: t => t
        | t => t
      let ws := body.takeWhile isPySpace
      !ws.isEmpty && !(body.dropWhile isPySpace).isEmpty
    else false
  | [] => false

/-- Case-insensitive prefix test (the regexes use `re.IGNORECASE`). -/
def ciIsPrefixOf (p s : Str) : Bool :=
  (pyLower p).isPrefixOf (pyLower s)

/-- The section keywords of strategy 3 and of the header-only filter. -/
def sectionKeywords : List Str :=
  [lit "SECTION", lit "ARTICLE", lit "CLAUSE", lit "PARAGRAPH"]

/-- Strategy 3 line test, from
`r'(?:SECTION|ARTICLE|CLAUSE|PARAGRAPH)\s+\d+[:.]' + content`
(case-insensitive). -/
def isSectionLine (l : Str) : Bool :=
  sectionKeywords.any fun kw =>
    if ciIsPrefixOf kw l then
      let r := l.drop kw.length
      let ws := r.takeWhile isPySpace
      let r := r.dropWhile isPySpace
      let ds := r.takeWhile Char.isDigit
      let r := r.dropWhile Char.isDigit
      if ws.isEmpty || ds.isEmpty then false
      else match r with
        | ':' :: t => !t.isEmpty
        | '.' :: t => !t.isEmpty
        | _ => false
    else false

/-- Strategy 1 candidates: lines opening a numbered section
(`match.group(1).strip()` for every regex match). -/
def numberedClauses (text : Str) : List Str :=
  ((splitNl text).filter isNumberedLine).map pyStrip

/-- Strategy 2 candidates: lines opening a lettered section. -/
def letteredClauses (text : Str) : List Str :=
  ((splitNl text).filter isLetteredLine).map pyStrip

/-- Strategy 3 candidates: lines opening a keyword-headed section. -/
def sectionClauses (text : Str) : List Str :=
  ((splitNl text).filter isSectionLine).map pyStrip

/-- Strategy 4 candidates:
`[p.strip() for p in text.split('\n\n') if p.strip()]`. -/
def paragraphClauses (text : Str) : List Str :=
  ((pySplitSub '\n' ['\n'] text).map pyStrip).filter (· ≠ [])

/-- Strategy 5 input:
`[line.strip() for line in text.split('\n') if line.strip()]`. -/
def lineClauses (text : Str) : List Str :=
  ((splitNl text).map pyStrip).filter (· ≠ [])

/-- The merging loop of strategy 5: a line shorter than 60 characters is
appended (with a space) to the accumulating clause when one is open,
otherwise it starts a new clause.  `acc` is `merged_clauses`, `cur` is
`current_clause`. -/
def mergeGo (acc : List Str) (cur : Str) : List Str → List Str
  | [] => if cur ≠ [] then acc ++ [cur] else acc
  | line :: rest =>
    if line.length < 60 ∧ cur ≠ [] then
      mergeGo acc (cur ++ ' ' :: line) rest
    else
      if cur ≠ [] then mergeGo (acc ++ [cur]) line rest
      else mergeGo acc line rest

/-- Strategy 5: merge very short consecutive lines. -/
def mergeLines (ls : List Str) : List Str := mergeGo [] [] ls

/-- `ClauseAgent._split_clauses`: the fixed cascade of five strategies,
each tried only when every earlier one produced an insufficient count,
with the whole text as a final fallback (`[text] if text else []`). -/
def splitClauses (text : Str) : List Str :=
  let numbered := numberedClauses text
  if numbered.length > 3 then numbered
  else
    let lettered := letteredClauses text
    if lettered.length > 3 then lettered
    else
      let sections := sectionClauses text
      if sections.length > 2 then sections
      else
        let paragraphs := paragraphClauses text
        if paragraphs.length > 2 then paragraphs
        else
          let lines := lineClauses text
          if lines.length > 1 then mergeLines lines
          else if text ≠ [] then [text] else []

/-- Roman-numeral-or-digit character class `[IVXLCDM0-9]` under
`re.IGNORECASE`. -/
def isRomanOrDigit (c : Char) : Bool :=
  c.isDigit || (toUpperChar c ∈ ['I', 'V', 'X', 'L', 'C', 'D', 'M'])

/-- The header regex
`r'^(?:SECTION|ARTICLE|CLAUSE|PARAGRAPH)\s+[IVXLCDM0-9]+\.?\s*$'`
(case-insensitive), as a full-match test. -/
def matchesHeaderPattern (s : Str) : Bool :=
  sectionKeywords.any fun kw =>
    if ciIsPrefixOf kw s then
      let r := s.drop kw.length
      let ws := r.takeWhile isPySpace
      let r := r.dropWhile isPySpace
      let ns := r.takeWhile isRomanOrDigit
      let r := r.dropWhile isRomanOrDigit
      if ws.isEmpty || ns.isEmpty then false
      else
        let r := match r with
          | '.' :: t => t
          | t => t
        (r.dropWhile isPySpace).isEmpty
    else false

/-- `ClauseAgent._is_header_only`. -/
def isHeaderOnly (clause : Str) : Bool :=
  (clause.length < 30 && pyUpper clause = clause) ||
    matchesHeaderPattern (pyStrip clause)

/-- One boilerplate noise test: `^page\s+\d+\s*$`. -/
def isPageNoise (s : Str) : Bool :=
  if (lit "page").isPrefixOf s then
    let r := s.drop 4
    let ws := r.takeWhile isPySpace
    let r := r.dropWhile isPySpace
    let ds := r.takeWhile Char.isDigit
    let r := r.dropWhile Char.isDigit
    !ws.isEmpty && !ds.isEmpty && (r.dropWhile isPySpace).isEmpty
  else false

/-- A line consisting of one or more copies of `c` followed by optional
whitespace (`^c+\s*$`), requiring at least `low` copies. -/
def isRunOf (c : Char) (low : Nat) (s : Str) : Bool :=
  let run := s.takeWhile (· = c)
  run.length ≥ low && ((s.dropWhile (· = c)).dropWhile isPySpace).isEmpty

/-- `ClauseAgent._is_boilerplate_noise`: the noise patterns are tested
against `clause.lower().strip()`. -/
def isBoilerplateNoise (clause : Str) : Bool :=
  let cl := pyStrip (pyLower clause)
  isPageNoise cl || isRunOf '-' 1 cl || isRunOf '_' 1 cl ||
    isRunOf '*' 1 cl || isRunOf '=' 3 cl

/-- The filtering loop of `ClauseAgent._filter_clauses`: skip empty,
too-short, header-only and boilerplate candidates; append
`clause.strip()`; stop once `MAX_CLAUSES` clauses are accepted. -/
def filterGo (filtered : List Str) : List Str → List Str
  | [] => filtered
  | clause :: rest =>
    if clause = [] ∨ pyStrip clause = [] then filterGo filtered rest
    else if clause.length < MIN_CLAUSE_LENGTH then filterGo filtered rest
    else if isHeaderOnly clause then filterGo filtered rest
    else if isBoilerplateNoise clause then filterGo filtered rest
    else
      let filtered' := filtered ++ [pyStrip clause]
      if filtered'.length ≥ MAX_CLAUSES then filtered'
      else filterGo filtered' rest

/-- `ClauseAgent._filter_clauses`. -/
def filterClauses (clauses : List Str) : List Str := filterGo [] clauses

/-- `ClauseAgent.run`: empty input short-circuits to no clauses,
otherwise preprocess, split, filter. -/
def clauseAgentRun (contract_text : Str) : List Str :=
  if contract_text = [] then []
  else filterClauses (splitClauses (preprocessText contract_text))

/-! ## Python values

Dictionaries, JSON-parse results and metadata values are dynamically
typed in the source; we model them with one inductive type.  Python
dictionaries (string-keyed, insertion-ordered, unique keys) are modelled
as association lists updated by `setKey`. -/

/-- A dynamically typed Python value. -/
inductive PyVal : Type where
  | str (s : Str)
  | int (n : Int)
  | bool (b : Bool)
  | null
  | arr (l : List PyVal)
  | obj (l : List (Str × PyVal))

/-- `'\x7b'` (left curly brace), kept out of string literals. -/
def lbrace : Char := Char.ofNat 123

/-- `'\x7d'` (right curly brace), kept out of string literals. -/
def rbrace : Char := Char.ofNat 125

/-- Dictionary lookup (`d[k]` / `k in d`). -/
def getKey (d : List (Str × PyVal)) (k : Str) : Option PyVal :=
  match d with
  | [] => none
  | (k', v) :: rest => if k' = k then some v else getKey rest k

/-- Dictionary assignment `d[k] = v`: overwrite in place if the key
exists (Python dicts keep the original insertion position), else append. -/
def setKey (d : List (Str × PyVal)) (k : Str) (v : PyVal) :
    List (Str × PyVal) :=
  match d with
  | [] => [(k, v)]
  | (k', v') :: rest =>
    if k' = k then (k', v) :: rest else (k', v') :: setKey rest k v

/-- Python `d.get(k, default)`. -/
def getKeyD (d : List (Str × PyVal)) (k : Str) (default : PyVal) : PyVal :=
  (getKey d k).getD default

/-- Python truthiness of a value. -/
def pyTruthy : PyVal → Bool
  | .str s => !s.isEmpty
  | .int n => n ≠ 0
  | .bool b => b
  | .null => false
  | .arr l => !l.isEmpty
  | .obj l => !l.isEmpty

/-- Python `len(v)` for sized values; `none` models the `TypeError`
raised on unsized values. -/
def pyLen : PyVal → Option Nat
  | .str s => some s.length
  | .arr l => some l.length
  | .obj l => some l.length
  | _ => none

/-- Python type name, for `TypeError` messages. -/
def pyTypeName : PyVal → Str
  | .str _ => lit "str"
  | .int _ => lit "int"
  | .bool _ => lit "bool"
  | .null => lit "NoneType"
  | .arr _ => lit "list"
  | .obj _ => lit "dict"

/-- Decimal digits of a natural number (`Nat.toDigits` is Lean core's
base-10 printer). -/
def natToStr (n : Nat) : Str := Nat.toDigits 10 n

/-- Python decimal rendering of an integer. -/
def intToStr (n : Int) : Str :=
  if n < 0 then '-' :: natToStr n.natAbs else natToStr n.natAbs

/-- Python `repr(v)` (string escaping inside `repr` of strings is not
reproduced; no claim depends on it). -/
def pyRepr : PyVal → Str
  | .str s => '\'' :: (s ++ ['\''])
  | .int n => intToStr n
  | .bool b => if b then lit "True" else lit "False"
  | .null => lit "None"
  | .arr l => '[' :: (pyJoin (lit ", ") (l.attach.map fun x => pyRepr x.1) ++ [']'])
  | .obj l => lbrace ::
      (pyJoin (lit ", ")
        (l.attach.map fun x => ('\'' :: (x.1.1 ++ ['\''])) ++ lit ": " ++ pyRepr x.1.2)
        ++ [rbrace])
decreasing_by
  · have h1 := List.sizeOf_lt_of_mem x.2
    simp at h1 ⊢
    omega
  · have h1 := List.sizeOf_lt_of_mem x.2
    obtain ⟨⟨k, v⟩, hm⟩ := x
    simp at h1 ⊢
    omega

/-- Python `str(v)`: the value itself for strings, `repr` otherwise
(matching `str()` on lists/dicts/numbers/booleans/None). -/
def pyStr : PyVal → Str
  | .str s => s
  | v => pyRepr v

/-! ## Risk Classifier (`app/agents/risk_agent.py`, class `RiskAgent`) -/

/-- `RiskAgent.RISK_LEVELS`. -/
def RISK_LEVELS : List Str := [lit "low", lit "medium", lit "high"]

/-- `high_indicators` of `RiskAgent._heuristic_risk_level`. -/
def high_indicators : List Str :=
  [lit "high", lit "high risk", lit "critical", lit "severe", lit "violation",
   lit "illegal", lit "non-compliant", lit "non compliant", lit "breach",
   lit "mandatory", lit "required", lit "must be", lit "fails to"]

/-- `medium_indicators` of `RiskAgent._heuristic_risk_level`. -/
def medium_indicators : List Str :=
  [lit "medium", lit "medium risk", lit "concern", lit "concerns", lit "missing",
   lit "should", lit "may", lit "consider", lit "recommend", lit "suggested",
   lit "advisable", lit "improve", lit "enhance", lit "unclear"]

/-- `low_indicators` of `RiskAgent._heuristic_risk_level`. -/
def low_indicators : List Str :=
  [lit "compliant", lit "acceptable", lit "adequate", lit "satisfactory",
   lit "meets requirements", lit "no issues", lit "low risk", lit "minimal"]

/-- The lower-cased combined text of `issue_summary` and `suggested_fix`
(`" ".join(text_fields).lower()`); a field contributes only when its key
is present. -/
def combinedText (parsed : List (Str × PyVal)) : Str :=
  let fields :=
    (match getKey parsed (lit "issue_summary") with
     | some v => [pyStr v]
     | none => []) ++
    (match getKey parsed (lit "suggested_fix") with
     | some v => [pyStr v]
     | none => [])
  pyLower (pyJoin (lit " ") fields)

/-- `missing_count`: the length of `missing_requirements` when present
and a list, `0` otherwise. -/
def missingCount (parsed : List (Str × PyVal)) : Nat :=
  match getKey parsed (lit "missing_requirements") with
  | some (.arr l) => l.length
  | _ => 0

/-- `RiskAgent._heuristic_risk_level`: keyword scans and
missing-requirement counts in the source's priority order (the final
low-indicator scan returns `"low"` either way, as in the source). -/
def heuristicRiskLevel (parsed : List (Str × PyVal)) : Str :=
  let text := combinedText parsed
  let mc := missingCount parsed
  if high_indicators.any (fun kw => containsSub text kw) then lit "high"
  else if mc ≥ 3 then lit "high"
  else if medium_indicators.any (fun kw => containsSub text kw) then lit "medium"
  else if mc > 0 then lit "medium"
  else if low_indicators.any (fun kw => containsSub text kw) then lit "low"
  else lit "low"

/-- The explicit risk level of a finding, when present and valid:
`str(parsed["risk_level"]).lower().strip()` if that normalised value is
one of the three tiers. -/
def validExplicitRisk (parsed : List (Str × PyVal)) : Option Str :=
  match getKey parsed (lit "risk_level") with
  | some v =>
    let rl := pyStrip (pyLower (pyStr v))
    if rl ∈ RISK_LEVELS then some rl else none
  | none => none

/-- `RiskAgent._determine_risk_level`: the explicit field wins when
valid, otherwise the heuristic applies. -/
def determineRiskLevel (parsed : List (Str × PyVal)) : Str :=
  match validExplicitRisk parsed with
  | some rl => rl
  | none => heuristicRiskLevel parsed

/-! ## Shared pipeline state (`app/agents/state.py`, `ContractState`) -/

/-- One audit-log record appended by `ContractState.add_audit_log`.
The `timestamp` field (`datetime.now().isoformat()`) is environment
input never read back by any code path and is not modelled. -/
structure AuditEntry where
  agent : Str
  action : Str
  details : Str
deriving DecidableEq

/-- One extracted clause record (`{id, title, text, type}`); the
pipeline guarantees the `id` key used as the findings join key. -/
structure ClauseRec where
  id : Str
  title : Option PyVal := none
  text : Option PyVal := none
  ctype : Option PyVal := none

/-- One drafted clause record (`{title, text, type}`), with the optional
keys the Self-Review stage may add. -/
structure DraftClause where
  title : Str
  text : Str
  ctype : Str
  review_quality : Option PyVal := none
  review_score : Option PyVal := none
  review_comment : Option Str := none

/-- `ContractState`, with the pydantic field defaults. -/
structure ContractState where
  raw_text : Str := []
  metadata : List (Str × PyVal) := []
  jurisdiction : PyVal := .obj []
  clauses : List ClauseRec := []
  retrieved_statutes : List PyVal := []
  retrieved_cases : List PyVal := []
  compliance_findings : List (Str × PyVal) := []
  risk_summary : PyVal := .obj []
  drafted_clauses : List DraftClause := []
  final_contract : Str := []
  audit_log : List AuditEntry := []

/-- `ContractState.add_audit_log`: append one entry. -/
def addAudit (st : ContractState) (agent action details : Str) :
    ContractState :=
  { st with audit_log := st.audit_log ++ [⟨agent, action, details⟩] }

/-! ## Risk Aggregation
(`app/agents/compliance/risk_scoring.py`, `RiskScoringAgent.process`) -/

/-- `finding.get("risk_level") == tier` for a finding value: true only
when the finding is a dict whose `risk_level` entry is the string
`tier` (non-dict findings do not occur in the pipeline; Python would
raise `AttributeError` on them). -/
def riskLevelIs (f : PyVal) (tier : Str) : Bool :=
  match f with
  | .obj l =>
    match getKey l (lit "risk_level") with
    | some (.str s) => s = tier
    | _ => false
  | _ => false

/-- The counting loop of `RiskScoringAgent.process`:
`(high_risks, medium_risks)` accumulated over the findings values. -/
def riskCounts (findings : List (Str × PyVal)) : Nat × Nat :=
  findings.foldl
    (fun acc kv =>
      if riskLevelIs kv.2 (lit "high") then (acc.1 + 1, acc.2)
      else if riskLevelIs kv.2 (lit "medium") then (acc.1, acc.2 + 1)
      else acc)
    (0, 0)

/-- The aggregated `risk_summary` value computed by
`RiskScoringAgent.process` from the findings mapping. -/
def riskSummaryOf (findings : List (Str × PyVal)) : PyVal :=
  let counts := riskCounts findings
  let total_score := counts.1 * 10 + counts.2 * 5
  let normalized_score := min 100 total_score
  .obj
    [(lit "overall_score", .int normalized_score),
     (lit "risk_level", .str
       (if normalized_score > 50 then lit "Critical"
        else if normalized_score > 20 then lit "Moderate"
        else lit "Low")),
     (lit "breakdown", .obj
       [(lit "high", .int counts.1), (lit "medium", .int counts.2)])]

/-- `RiskScoringAgent.process`. -/
def riskScoringProcess (st : ContractState) : ContractState :=
  let counts := riskCounts st.compliance_findings
  let normalized_score := min 100 (counts.1 * 10 + counts.2 * 5)
  addAudit { st with risk_summary := riskSummaryOf st.compliance_findings }
    (lit "RiskScoring") (lit "Calculate")
    (lit "Risk Score: " ++ natToStr normalized_score)

/-! ## Best-effort JSON extraction (`re.search(r'\x7b.*\x7d', response,
re.DOTALL)`), used by the jurisdiction and reasoning stages -/

/-- The greedy brace match: the substring from the first left brace to
the last right brace, when a right brace occurs after the first left
brace; `none` when the regex finds no match. -/
def extractJson (s : Str) : Option Str :=
  let t := s.dropWhile (· ≠ lbrace)
  let u := (t.reverse.dropWhile (· ≠ rbrace)).reverse
  if u.isEmpty then none else some u

/-- Outcome of one external LLM `generate` call: the returned text, or
the message of the exception it raised. -/
abbrev LLMResult := Except Str Str

/-- Outcome of `json.loads`: the parsed value, or the
`json.JSONDecodeError` message. -/
abbrev JsonParser := Str → Except Str PyVal

/-! ## Jurisdiction Resolver
(`app/agents/compliance/jurisdiction.py`, `JurisdictionResolverAgent`) -/

/-- `JurisdictionResolverAgent.process`.  `gen` is the outcome of the
LLM call, `jsonLoads` the behaviour of `json.loads`.  Note that the
exception path (LLM failure, or `json.loads` failure on the extracted
substring) sets a fallback jurisdiction but appends no audit entry. -/
def jurisdictionProcess (gen : LLMResult) (jsonLoads : JsonParser)
    (st : ContractState) : ContractState :=
  if pyTruthy (getKeyD st.metadata (lit "jurisdiction") .null) then
    let j : PyVal := .obj
      [(lit "country", .str (lit "India")),
       (lit "region", getKeyD st.metadata (lit "jurisdiction") .null)]
    addAudit { st with jurisdiction := j }
      (lit "JurisdictionResolver") (lit "Check")
      (lit "Used metadata: " ++ pyStr j)
  else
    match gen with
    | .error e =>
      { st with jurisdiction := (PyVal.obj
          [(lit "country", .str (lit "India")), (lit "error", .str e)]) }
    | .ok response =>
      match extractJson response with
      | some m =>
        match jsonLoads m with
        | .ok v =>
          addAudit { st with jurisdiction := v }
            (lit "JurisdictionResolver") (lit "Inference")
            (lit "Detected: " ++ pyStr v)
        | .error e =>
          { st with jurisdiction := (PyVal.obj
              [(lit "country", .str (lit "India")), (lit "error", .str e)]) }
      | none =>
        let j : PyVal := .obj
          [(lit "country", .str (lit "India")),
           (lit "region", .str (lit "Unknown"))]
        addAudit { st with jurisdiction := j }
          (lit "JurisdictionResolver") (lit "Inference")
          (lit "Detected: " ++ pyStr j)

/-! ## Compliance Reasoning
(`app/agents/compliance/reasoning.py`, `ComplianceReasoningAgent`) -/

/-- The error-fallback finding recorded by the `except` handler of the
per-clause loop (`status: error, risk_level: high, reason: "Analysis
error: ...", suggested_fix: "Contact support."`). -/
def reasoningErrorFinding (e : Str) : PyVal :=
  .obj
    [(lit "status", .str (lit "error")),
     (lit "risk_level", .str (lit "high")),
     (lit "reason", .str (lit "Analysis error: " ++ e)),
     (lit "suggested_fix", .str (lit "Contact support."))]

/-- The warning finding the `else` branch of the per-clause loop is
written to record on a parse failure (source lines 55-60).  The source
wraps this dict in a second pair of braces, making it a Python set
literal containing a dict. -/
def reasoningWarningFinding : PyVal :=
  .obj
    [(lit "status", .str (lit "warning")),
     (lit "risk_level", .str (lit "medium")),
     (lit "reason", .str (lit "LLM failed to parse analysis for this clause.")),
     (lit "suggested_fix", .str (lit "Review manually."))]

/-- The message of the `TypeError` raised when Python evaluates the set
literal wrapping the warning dict (a dict is unhashable). -/
def unhashableDictMsg : Str := lit "unhashable type: 'dict'"

/-- The finding recorded for one clause by
`ComplianceReasoningAgent.process`.  `rGen` maps the clause id to the
outcome of the per-clause LLM call.  When the response contains no JSON
object substring, the `else` branch evaluates a set literal wrapping the
warning dict; that construction raises `TypeError`, which the
surrounding `except` turns into the error-fallback finding. -/
def reasoningFinding (rGen : Str → LLMResult) (jsonLoads : JsonParser)
    (c : ClauseRec) : PyVal :=
  match rGen c.id with
  | .error e => reasoningErrorFinding e
  | .ok response =>
    match extractJson response with
    | some m =>
      match jsonLoads m with
      | .ok v => v
      | .error e => reasoningErrorFinding e
    | none => reasoningErrorFinding unhashableDictMsg

/-- `ComplianceReasoningAgent.process`: build the findings dict clause
by clause, store it, append one audit entry. -/
def reasoningProcess (rGen : Str → LLMResult) (jsonLoads : JsonParser)
    (st : ContractState) : ContractState :=
  let findings := st.clauses.foldl
    (fun acc c => setKey acc c.id (reasoningFinding rGen jsonLoads c)) []
  addAudit { st with compliance_findings := findings }
    (lit "ComplianceReasoning") (lit "Analyze")
    (lit "Analyzed " ++ natToStr st.clauses.length ++
      lit " clauses with LLM reasoning")

/-! ## Rate Limiter (`app/utils/rate_limiter.py`, class `RateLimiter`)

Python floats are modelled as exact rationals.  Each `time.monotonic()`
call is an input (`now1` for the RPS check, `now2` for the RPM refill,
`now3` for the `last_request_time` update on success).  `try_acquire`
contains no `await asyncio.sleep` (only `acquire` does); it is a pure
state-step function here. -/

/-- The mutable state of one `RateLimiter` instance. -/
structure RateLimiter where
  rpm : ℚ
  rps : ℚ
  rpm_period : ℚ
  rpm_tokens : ℚ
  rpm_updated_at : ℚ
  last_request_time : ℚ
  rps_interval : ℚ

/-- `RateLimiter.__init__(rpm, rps)` at construction time `now`. -/
def mkRateLimiter (rpm : Int) (rps : ℚ) (now : ℚ) : RateLimiter :=
  { rpm := rpm
    rps := rps
    rpm_period := 60
    rpm_tokens := rpm
    rpm_updated_at := now
    last_request_time := 0
    rps_interval := if rps > 0 then 1 / rps else 0 }

/-- `RateLimiter.try_acquire`: non-blocking RPS spacing check, then the
token-bucket refill and conditional decrement.  Returns the boolean
result and the successor state. -/
def tryAcquire (rl : RateLimiter) (now1 now2 now3 : ℚ) :
    Bool × RateLimiter :=
  if rl.rps > 0 ∧ rl.rps_interval - (now1 - rl.last_request_time) > 0 then
    (false, rl)
  else
    let time_passed := now2 - rl.rpm_updated_at
    let refill_amount := time_passed / rl.rpm_period * rl.rpm
    let tokens :=
      if refill_amount > 0 then min rl.rpm (rl.rpm_tokens + refill_amount)
      else rl.rpm_tokens
    let updated_at := if refill_amount > 0 then now2 else rl.rpm_updated_at
    if tokens ≥ 1 then
      (true,
        { rl with
            rpm_tokens := tokens - 1
            rpm_updated_at := updated_at
            last_request_time :=
              if rl.rps > 0 then now3 else rl.last_request_time })
    else
      (false, { rl with rpm_tokens := tokens, rpm_updated_at := updated_at })

/-- The refilled token count `try_acquire` computes before deciding
(`tokens += elapsed/period * rpm`, capped at `rpm`, applied only when
the refill amount is positive). -/
def refilledTokens (rl : RateLimiter) (now2 : ℚ) : ℚ :=
  if (now2 - rl.rpm_updated_at) / rl.rpm_period * rl.rpm > 0 then
    min rl.rpm (rl.rpm_tokens + (now2 - rl.rpm_updated_at) / rl.rpm_period * rl.rpm)
  else rl.rpm_tokens

/-- The RPS spacing gate of `try_acquire` (true = not denied). -/
def rpsOk (rl : RateLimiter) (now1 : ℚ) : Prop :=
  ¬(rl.rps > 0 ∧ rl.rps_interval - (now1 - rl.last_request_time) > 0)

/-! ## Failover Dispatcher (`app/llms/hybrid_client.py`,
`HybridLLMClient.generate`)

One call to `generate` consults each adapter's rate limiter at most once
and its `generate` at most once, so an adapter's behaviour within the
call is a pair of outcomes.  The `clients` list is the output of
`_get_execution_order()` (name/client pairs, entries possibly `None`,
which the loop skips with `continue`).  The terminal
`raise Exception(f"... Errors: {errors}")` is modelled as an `Except`
error carrying the aggregated per-adapter failure reasons. -/

/-- One backend adapter's behaviour during a single dispatcher call. -/
structure HClient where
  tryAcq : Bool
  gen : LLMResult

/-- The rate-limit classification of an exception message
(`"429" | "too many requests" | "resource exhausted" | "quota"` in the
lower-cased text). -/
def isRateLimitError (e : Str) : Bool :=
  let el := pyLower e
  containsSub el (lit "429") || containsSub el (lit "too many requests") ||
    containsSub el (lit "resource exhausted") || containsSub el (lit "quota")

/-- What happened to one adapter during a dispatcher call: its limiter
denied admission, or its `generate` was actually invoked. -/
inductive HEvent : Type where
  | limited (name : Str)
  | attempted (name : Str)
deriving DecidableEq

/-- The failure reason recorded in `errors` for one failed attempt. -/
def hybridErrMsg (name e : Str) : Str :=
  if isRateLimitError e then name ++ lit ": Rate Limit"
  else name ++ lit ": " ++ e

/-- The loop of `HybridLLMClient.generate`, instrumented with the list
of per-adapter events.  `errors` is the accumulated failure list. -/
def hybridGo (clients : List (Str × Option HClient)) (errors : List Str) :
    Except (List Str) Str × List HEvent :=
  match clients with
  | [] => (.error errors, [])
  | (_, none) :: rest => hybridGo rest errors
  | (name, some c) :: rest =>
    if !c.tryAcq then
      let r := hybridGo rest errors
      (r.1, .limited name :: r.2)
    else
      match c.gen with
      | .ok t => (.ok t, [.attempted name])
      | .error e =>
        let r := hybridGo rest (errors ++ [hybridErrMsg name e])
        (r.1, .attempted name :: r.2)

/-- `HybridLLMClient.generate` (with its event trace). -/
def hybridGenerate (clients : List (Str × Option HClient)) :
    Except (List Str) Str × List HEvent :=
  hybridGo clients []

/-- The single event one adapter contributes when the loop reaches it. -/
def evOf : Str × Option HClient → Option HEvent
  | (_, none) => none
  | (name, some c) =>
    if !c.tryAcq then some (.limited name) else some (.attempted name)

/-- The failure reason one adapter contributes: none when absent,
rate-limiter-denied, or successful. -/
def errOf : Str × Option HClient → Option Str
  | (_, none) => none
  | (name, some c) =>
    if !c.tryAcq then none
    else
      match c.gen with
      | .ok _ => none
      | .error e => some (hybridErrMsg name e)

/-- Whether the loop would return successfully at this adapter. -/
def isSuccessAdapter : Str × Option HClient → Bool
  | (_, none) => false
  | (_, some c) =>
    c.tryAcq && (match c.gen with | .ok _ => true | .error _ => false)

/-! ## Drafting stage processors (`app/agents/drafting/*.py`)

Every stage wraps its LLM call and JSON handling in
`try/except json.JSONDecodeError/except Exception`, so no stage
propagates an exception to the orchestrator.  Each stage's LLM call
outcome is an oracle field; `jsonLoads` models `json.loads`.  Inside a
`try`, a `len()` or attribute access on an unsuitable parsed value
raises `TypeError`/`AttributeError` and control reaches the
`except Exception` handler with the writes made so far retained; the
corresponding Python error messages are reproduced below. -/

/-- External outcomes consumed by one `DraftingOrchestrator.run`. -/
structure DraftOracle where
  intentGen : LLMResult
  policyGen : LLMResult
  templateGen : LLMResult
  generationGen : LLMResult
  reviewGen : LLMResult
  fallbackGen : LLMResult
  jsonLoads : JsonParser

/-- The markdown-fence stripping shared by the drafting stages:
strip, drop a leading fence line, drop a trailing fence, strip. -/
def stripFences (s : Str) : Str :=
  let clean := pyStrip s
  let clean :=
    if (lit "```").isPrefixOf clean then
      match splitFirstNl clean with
      | some p => p.2
      | none => clean.drop 3
    else clean
  let clean :=
    if (lit "```").isSuffixOf clean then clean.take (clean.length - 3)
    else clean
  pyStrip clean

/-- `TypeError` message of `len(v)` on an unsized value. -/
def lenErrMsg (v : PyVal) : Str :=
  lit "object of type '" ++ pyTypeName v ++ lit "' has no len()"

/-- `AttributeError` message of `v.get` on a non-dict value. -/
def getAttrErrMsg (v : PyVal) : Str :=
  lit "'" ++ pyTypeName v ++ lit "' object has no attribute 'get'"

/-- The `except Exception` handler of `IntentAnalysisAgent.process`:
metadata defaults plus one `Error` audit entry. -/
def intentErrHandler (st : ContractState) (e : Str) : ContractState :=
  let md := setKey st.metadata (lit "detected_intent")
    (getKeyD st.metadata (lit "contract_type") (.str (lit "General Agreement")))
  let md := setKey md (lit "detected_entities")
    (getKeyD st.metadata (lit "parties") (.arr []))
  addAudit { st with metadata := md } (lit "IntentAnalysis") (lit "Error")
    (lit "LLM call failed: " ++ e)

/-- `IntentAnalysisAgent.process`. -/
def intentProcess (o : DraftOracle) (st : ContractState) : ContractState :=
  match o.intentGen with
  | .error e => intentErrHandler st e
  | .ok response =>
    match o.jsonLoads (stripFences response) with
    | .error _ =>
      let md := setKey st.metadata (lit "detected_intent")
        (getKeyD st.metadata (lit "contract_type") (.str (lit "General Agreement")))
      let md := setKey md (lit "detected_entities")
        (getKeyD st.metadata (lit "parties") (.arr []))
      let md := setKey md (lit "key_requirements")
        (.arr [.str (st.raw_text.take 200)])
      addAudit { st with metadata := md } (lit "IntentAnalysis") (lit "Fallback")
        (lit "Used metadata-based defaults due to parse error")
    | .ok (.obj kvs) =>
      let di := getKeyD kvs (lit "detected_intent")
        (getKeyD st.metadata (lit "contract_type") (.str (lit "General")))
      let de := getKeyD kvs (lit "detected_entities") (.arr [])
      let kr := getKeyD kvs (lit "key_requirements") (.arr [])
      let sc := getKeyD kvs (lit "suggested_clauses") (.arr [])
      let md := setKey st.metadata (lit "detected_intent") di
      let md := setKey md (lit "detected_entities") de
      let md := setKey md (lit "key_requirements") kr
      let md := setKey md (lit "suggested_clauses") sc
      let st' := { st with metadata := md }
      match pyLen de, pyLen kr with
      | some ne, some nk =>
        addAudit st' (lit "IntentAnalysis") (lit "Analyze")
          (lit "Detected intent: " ++ pyStr di ++ lit ", " ++ natToStr ne ++
            lit " entities, " ++ natToStr nk ++ lit " requirements")
      | none, _ => intentErrHandler st' (lenErrMsg de)
      | some _, none => intentErrHandler st' (lenErrMsg kr)
    | .ok v => intentErrHandler st (getAttrErrMsg v)

/-- The `except Exception` handler of `PolicyCheckAgent.process`. -/
def policyErrHandler (st : ContractState) (e : Str) : ContractState :=
  let md := setKey st.metadata (lit "policy_warnings") (.arr [])
  addAudit { st with metadata := md } (lit "PolicyCheck") (lit "Error")
    (lit "LLM call failed: " ++ e ++ lit ", allowed by default")

/-- `PolicyCheckAgent.process`. -/
def policyProcess (o : DraftOracle) (st : ContractState) : ContractState :=
  match o.policyGen with
  | .error e => policyErrHandler st e
  | .ok response =>
    match o.jsonLoads (stripFences response) with
    | .error _ =>
      let md := setKey st.metadata (lit "policy_warnings") (.arr [])
      addAudit { st with metadata := md } (lit "PolicyCheck") (lit "Fallback")
        (lit "Parse error, allowed by default")
    | .ok (.obj kvs) =>
      let allowed := getKeyD kvs (lit "allowed") (.bool true)
      let warnings := getKeyD kvs (lit "policy_warnings") (.arr [])
      let suggestions := getKeyD kvs (lit "suggestions") (.arr [])
      let md := setKey st.metadata (lit "policy_warnings") warnings
      let md := setKey md (lit "policy_suggestions") suggestions
      let st' := { st with metadata := md }
      if !pyTruthy allowed then
        let block_reason := getKeyD kvs (lit "block_reason")
          (.str (lit "Policy violation detected"))
        let md' := setKey st'.metadata (lit "policy_block") block_reason
        addAudit { st' with metadata := md' } (lit "PolicyCheck") (lit "Block")
          (lit "Blocked: " ++ pyStr block_reason)
      else
        match pyLen warnings with
        | some nw =>
          addAudit st' (lit "PolicyCheck") (lit "Pass")
            (lit "Policy check passed with " ++ natToStr nw ++ lit " warning(s)")
        | none => policyErrHandler st' (lenErrMsg warnings)
    | .ok v => policyErrHandler st (getAttrErrMsg v)

/-- `TemplateSelectionAgent.TEMPLATE_STRUCTURES` (insertion order). -/
def TEMPLATE_STRUCTURES : List (Str × Str) :=
  [(lit "nda", lit "NDA_Standard_v1"),
   (lit "non-disclosure", lit "NDA_Standard_v1"),
   (lit "service", lit "ServiceAgreement_Standard_v1"),
   (lit "service agreement", lit "ServiceAgreement_Standard_v1"),
   (lit "employment", lit "Employment_Standard_v1"),
   (lit "lease", lit "Lease_Standard_v1"),
   (lit "purchase", lit "Purchase_Standard_v1"),
   (lit "consulting", lit "Consulting_Standard_v1"),
   (lit "partnership", lit "Partnership_Standard_v1"),
   (lit "licensing", lit "Licensing_Standard_v1")]

/-- `TemplateSelectionAgent._match_template`: first template key
contained in the lower-cased `"{intent} {type}"`, else a generic name. -/
def matchTemplate (detected_intent contract_type : PyVal) : Str :=
  let search := pyLower (pyStr detected_intent ++ lit " " ++ pyStr contract_type)
  match TEMPLATE_STRUCTURES.find? (fun kv => containsSub search kv.1) with
  | some kv => kv.2
  | none => pyStr contract_type ++ lit "_General_v1"

/-- The `except Exception` handler of `TemplateSelectionAgent.process`
(`detected_intent`/`contract_type` are the locals bound at entry; `e`
names the caught exception, whose message the stage only logs). -/
def templateErrHandler (st : ContractState) (detected_intent contract_type : PyVal)
    (_e : Str) : ContractState :=
  let fallback := matchTemplate detected_intent contract_type
  let md := setKey st.metadata (lit "selected_template") (.str fallback)
  addAudit { st with metadata := md } (lit "TemplateSelection") (lit "Error")
    (lit "LLM failed, fallback: " ++ fallback)

/-- `TemplateSelectionAgent.process`. -/
def templateProcess (o : DraftOracle) (st : ContractState) : ContractState :=
  let contract_type := getKeyD st.metadata (lit "contract_type") (.str (lit "General"))
  let detected_intent := getKeyD st.metadata (lit "detected_intent") contract_type
  match o.templateGen with
  | .error e => templateErrHandler st detected_intent contract_type e
  | .ok response =>
    match o.jsonLoads (stripFences response) with
    | .error _ =>
      let fallback := matchTemplate detected_intent contract_type
      let md := setKey st.metadata (lit "selected_template") (.str fallback)
      addAudit { st with metadata := md } (lit "TemplateSelection") (lit "Fallback")
        (lit "Used keyword matching: " ++ fallback)
    | .ok (.obj kvs) =>
      let template_key := getKeyD kvs (lit "selected_template_key") (.str (lit "general"))
      match detected_intent with
      | .str di =>
        let custom := (di.filter (· ≠ ' ')) ++ lit "_Custom_v1"
        match template_key with
        | .arr _ =>
          templateErrHandler st detected_intent contract_type
            (lit "unhashable type: 'list'")
        | .obj _ =>
          templateErrHandler st detected_intent contract_type
            (lit "unhashable type: 'dict'")
        | k =>
          let template_name :=
            match k with
            | .str ks =>
              match TEMPLATE_STRUCTURES.find? (fun kv => kv.1 = ks) with
              | some kv => kv.2
              | none => custom
            | _ => custom
          let rs := getKeyD kvs (lit "required_sections") (.arr [])
          let os := getKeyD kvs (lit "optional_sections") (.arr [])
          let jn := getKeyD kvs (lit "jurisdiction_specific_notes") (.str [])
          let md := setKey st.metadata (lit "selected_template") (.str template_name)
          let md := setKey md (lit "required_sections") rs
          let md := setKey md (lit "optional_sections") os
          let md := setKey md (lit "jurisdiction_notes") jn
          let st' := { st with metadata := md }
          match pyLen rs with
          | some nr =>
            addAudit st' (lit "TemplateSelection") (lit "Select")
              (lit "Selected: " ++ template_name ++ lit " with " ++ natToStr nr ++
                lit " required sections")
          | none => templateErrHandler st' detected_intent contract_type (lenErrMsg rs)
      | v => templateErrHandler st detected_intent contract_type
          (lit "'" ++ pyTypeName v ++ lit "' object has no attribute 'replace'")
    | .ok v => templateErrHandler st detected_intent contract_type (getAttrErrMsg v)

/-- The section-parsing loop of `GenerationAgent.process` over
`generated_text.split("\n## ")`, with the running `enumerate` index. -/
def parseSectionsGo (i : Nat) : List Str → List DraftClause
  | [] => []
  | sec :: rest =>
    let s := pyStrip sec
    if s = [] then parseSectionsGo (i + 1) rest
    else if i = 0 ∧ ¬(['#'].isPrefixOf s) then
      { title := lit "Preamble", text := s, ctype := lit "llm_generated" } ::
        parseSectionsGo (i + 1) rest
    else
      let first := match splitFirstNl s with | some p => p.1 | none => s
      let title := pyStrip ((pyStrip first).dropWhile (fun c => c = '#' ∨ c = ' '))
      let text := if i > 0 then lit "## " ++ s else s
      { title := title, text := text, ctype := lit "llm_generated" } ::
        parseSectionsGo (i + 1) rest

/-- `GenerationAgent.process`: on success, parse the generated markdown
into clause records (wrapping the whole text when parsing yields
nothing); on failure, record one error clause.  Either way exactly one
audit entry is appended and the stage returns normally. -/
def generationProcess (o : DraftOracle) (st : ContractState) : ContractState :=
  match o.generationGen with
  | .error e =>
    let dc : List DraftClause :=
      [{ title := lit "Error",
         text := lit "Contract generation failed: " ++ e ++ lit ". Please try again.",
         ctype := lit "error" }]
    addAudit { st with drafted_clauses := dc } (lit "Generation") (lit "Error")
      (lit "LLM generation failed: " ++ e)
  | .ok generated_text =>
    let sections := pySplitSub '\n' (lit "## ") generated_text
    let clauses := parseSectionsGo 0 sections
    let clauses :=
      if clauses.isEmpty then
        [{ title := lit "Full Contract", text := generated_text,
           ctype := lit "llm_generated" }]
      else clauses
    addAudit { st with drafted_clauses := clauses } (lit "Generation") (lit "Generate")
      (lit "LLM generated " ++ natToStr clauses.length ++ lit " clauses (" ++
        natToStr generated_text.length ++ lit " chars)")

/-- The `except Exception` handler of `SelfReviewAgent.process`. -/
def reviewErrHandler (st : ContractState) (e : Str) : ContractState :=
  let dcs := st.drafted_clauses.map
    (fun c => { c with review_comment := some (lit "Review skipped due to error") })
  addAudit { st with drafted_clauses := dcs } (lit "SelfReview") (lit "Error")
    (lit "Review failed: " ++ e)

/-- `SelfReviewAgent.process`. -/
def reviewProcess (o : DraftOracle) (st : ContractState) : ContractState :=
  if st.drafted_clauses.isEmpty then
    addAudit st (lit "SelfReview") (lit "Skip") (lit "No clauses to review")
  else if st.drafted_clauses.length = 1 ∧
      ((st.drafted_clauses.head?.map (·.ctype)).getD [] = lit "error") then
    addAudit st (lit "SelfReview") (lit "Skip")
      (lit "Skipping review of error clause")
  else
    match o.reviewGen with
    | .error e => reviewErrHandler st e
    | .ok response =>
      match o.jsonLoads (stripFences response) with
      | .error _ =>
        let dcs := st.drafted_clauses.map
          (fun c => { c with review_comment :=
            (some (lit "Review completed (response unparseable)")) })
        addAudit { st with drafted_clauses := dcs } (lit "SelfReview") (lit "Fallback")
          (lit "LLM response could not be parsed")
      | .ok (.obj kvs) =>
        let quality := getKeyD kvs (lit "overall_quality") (.str (lit "good"))
        let score := getKeyD kvs (lit "completeness_score") (.int 7)
        let issues := getKeyD kvs (lit "issues") (.arr [])
        let missing := getKeyD kvs (lit "missing_clauses") (.arr [])
        let suggestions := getKeyD kvs (lit "improvement_suggestions") (.arr [])
        let dcs := st.drafted_clauses.map
          (fun c => { c with review_quality := some quality,
                             review_score := some score })
        let md := setKey st.metadata (lit "review_quality") quality
        let md := setKey md (lit "review_score") score
        let md := setKey md (lit "review_issues") issues
        let md := setKey md (lit "review_missing_clauses") missing
        let md := setKey md (lit "review_suggestions") suggestions
        let st' := { st with drafted_clauses := dcs, metadata := md }
        match pyLen issues, pyLen missing with
        | some ni, some nm =>
          addAudit st' (lit "SelfReview") (lit "Review")
            (lit "Quality: " ++ pyStr quality ++ lit ", Score: " ++ pyStr score ++
              lit "/10, Issues: " ++ natToStr ni ++ lit ", Missing: " ++ natToStr nm)
        | none, _ => reviewErrHandler st' (lenErrMsg issues)
        | some _, none => reviewErrHandler st' (lenErrMsg missing)
      | .ok v => reviewErrHandler st (getAttrErrMsg v)

/-! ## Drafting Orchestrator
(`app/agents/drafting/orchestrator.py`, `DraftingOrchestrator.run`)

The five stages catch their own exceptions and always return, so the
only exception the orchestrator's `try` observes is the `ValueError`
raised when the assembled `final_contract` is empty or under 100
characters (Python-level type errors on adversarial caller-supplied
metadata values are outside this model).  `_run_fallback` catches its
own LLM failure, so `run` always returns a state. -/

/-- The staged pipeline followed by final assembly: state after the
five stages with `final_contract` set to the drafted clause texts
joined by blank lines. -/
def stagedState (o : DraftOracle) (raw : Str) (md : List (Str × PyVal)) :
    ContractState :=
  let st : ContractState := { raw_text := raw, metadata := md }
  let st := addAudit st (lit "DraftingOrchestrator") (lit "Start")
    (lit "Drafting process initiated")
  let st := reviewProcess o (generationProcess o
    (templateProcess o (policyProcess o (intentProcess o st))))
  { st with final_contract :=
      pyJoin (lit "\n\n") (st.drafted_clauses.map (·.text)) }

/-- `DraftingOrchestrator._run_fallback`: one consolidated generation
call; on success overwrite `final_contract` with the response, on
failure write a human-readable error message; either way append one
audit entry. -/
def runFallback (o : DraftOracle) (st : ContractState) : ContractState :=
  match o.fallbackGen with
  | .ok response =>
    addAudit { st with final_contract := response }
      (lit "DraftingOrchestrator") (lit "Fallback Success")
      (lit "Contract generated via fallback LLM call")
  | .error e =>
    addAudit { st with final_contract :=
        (lit "Error: Could not generate contract. " ++ e) }
      (lit "DraftingOrchestrator") (lit "Total Failure") e

/-- `DraftingOrchestrator.run`. -/
def orchestratorRun (o : DraftOracle) (raw : Str)
    (md : List (Str × PyVal)) : ContractState :=
  let s := stagedState o raw md
  if s.final_contract = [] ∨ s.final_contract.length < 100 then
    let s := addAudit s (lit "DraftingOrchestrator") (lit "Fallback")
      (lit "Error: Agent pipeline produced insufficient content")
    addAudit (runFallback o s) (lit "DraftingOrchestrator") (lit "End")
      (lit "Drafting process completed")
  else
    addAudit s (lit "DraftingOrchestrator") (lit "End")
      (lit "Drafting process completed")

/-! ## Remaining compliance stage processors
(`app/agents/compliance/ingestion.py`, `clause_extraction.py`,
`statute_retrieval.py`, `remediation.py`) -/

/-- `IngestionAgent.process`: returns without any audit entry when
`raw_text` is falsy, otherwise logs one entry. -/
def ingestionProcess (st : ContractState) : ContractState :=
  if st.raw_text = [] then st
  else
    addAudit st (lit "IngestionAgent") (lit "Process")
      (lit "Processed input of length " ++ natToStr st.raw_text.length)

/-- The greedy bracket match `re.search(r'\[.*\]', response, re.DOTALL)`
of the clause extractor: the substring from the first left bracket to
the last right bracket, when one occurs after it. -/
def extractJsonArray (s : Str) : Option Str :=
  let t := s.dropWhile (· ≠ '[')
  let u := (t.reverse.dropWhile (· ≠ ']')).reverse
  if u.isEmpty then none else some u

/-- The single-clause fallback record
`{"id": "1", "text": state.raw_text, "type": ty}` the extractor stores
when the response has no JSON array or parsing raises. -/
def clauseFallback (raw : Str) (ty : String) : List ClauseRec :=
  [{ id := lit "1", text := some (.str raw), ctype := some (.str (lit ty)) }]

/-- `ClauseExtractorAgent.process`.  `parseClauses` models `json.loads`
on the matched array followed by the pipeline's clause-record view of
the parsed objects (its error is a `JSONDecodeError`).  Every path
stores a clause list and appends exactly one audit entry. -/
def clauseExtractionProcess (gen : LLMResult)
    (parseClauses : Str → Except Str (List ClauseRec))
    (st : ContractState) : ContractState :=
  let clauses :=
    match gen with
    | .ok response =>
      match extractJsonArray response with
      | some m =>
        match parseClauses m with
        | .ok cl => cl
        | .error _ => clauseFallback st.raw_text "Error Fallback"
      | none => clauseFallback st.raw_text "Unclassified"
    | .error _ => clauseFallback st.raw_text "Error Fallback"
  addAudit { st with clauses := clauses } (lit "ClauseExtractor")
    (lit "Extract")
    (lit "Extracted " ++ natToStr clauses.length ++ lit " clauses")

/-- One document returned by the vector store's `similarity_search`. -/
structure StatuteDoc where
  metadataD : List (Str × PyVal)
  page_content : Str

/-- `StatuteRetrievalAgent.process`.  `search` is the outcome of the
Pinecone lookup (an external service).  `state.jurisdiction.get(...)`
feeds only the query text; the jurisdiction value is always a dict
(`json.loads` of a brace-delimited match, or one of the literal
fallback dicts), so the `AttributeError` a non-dict would raise before
the `try` cannot occur and is not modelled.  Both the success and the
exception path append exactly one audit entry. -/
def statuteRetrievalProcess (search : Except Str (List StatuteDoc))
    (st : ContractState) : ContractState :=
  match search with
  | .ok docs =>
    let retrieved : List PyVal :=
      if docs.isEmpty then []
      else
        docs.map fun d => .obj
          [(lit "source", getKeyD d.metadataD (lit "source") (.str (lit "Unknown"))),
           (lit "section", getKeyD d.metadataD (lit "section") (.str (lit "N/A"))),
           (lit "text", .str d.page_content)]
    addAudit { st with retrieved_statutes := retrieved }
      (lit "StatuteRetrieval") (lit "Search")
      (lit "Retrieved " ++ natToStr retrieved.length ++ lit " statutes")
  | .error e =>
    { addAudit st (lit "StatuteRetrieval") (lit "Error") e with
        retrieved_statutes := [] }

/-- `finding["status"] == "compliant"` (Python `!=` against a string is
true for every non-equal or non-string value). -/
def statusIsCompliant (v : PyVal) : Bool :=
  match v with
  | .str s => s = lit "compliant"
  | _ => false

/-- One step of `RemediationAgent.process`: overwrite `suggested_fix`
on a non-compliant finding; `finding["status"]` on a dict without the
key raises `KeyError` (on a non-dict, `TypeError`) — the exact Python
messages are unobservable (the exception propagates out of the
unguarded orchestrator) and are rendered descriptively. -/
def remediateFinding (f : PyVal) : Except Str PyVal :=
  match f with
  | .obj kvs =>
    match getKey kvs (lit "status") with
    | some status =>
      if statusIsCompliant status then .ok f
      else .ok (.obj (setKey kvs (lit "suggested_fix")
        (.str (lit "Rewrite clause to explicitly mention..."))))
    | none => .error (lit "KeyError: 'status'")
  | _ => .error (lit "TypeError: finding is not subscriptable")

/-- The remediation loop over `compliance_findings.items()`, stopping
at the first finding that raises. -/
def remediateAll : List (Str × PyVal) → Except Str (List (Str × PyVal))
  | [] => .ok []
  | (k, f) :: rest =>
    match remediateFinding f with
    | .error e => .error e
    | .ok f' =>
      match remediateAll rest with
      | .error e => .error e
      | .ok rest' => .ok ((k, f') :: rest')

/-- `RemediationAgent.process`: on completion, the rewritten findings
plus exactly one audit entry; a finding without a `status` key makes
the stage raise with no entry appended (the exception aborts the
orchestrator run, discarding the state). -/
def remediationProcess (st : ContractState) : Except Str ContractState :=
  match remediateAll st.compliance_findings with
  | .error e => .error e
  | .ok findings =>
    .ok (addAudit { st with compliance_findings := findings }
      (lit "Remediation") (lit "Suggest")
      (lit "Generated remediation suggestions"))

/-! # Theorems -/

/-! ## C2: Risk Aggregation -/

/-- A finding whose `risk_level` is `"medium"` is never also `"high"`:
the `elif` of the counting loop coincides with a plain count. -/
theorem riskLevelIs_excl (f : PyVal) :
    (!riskLevelIs f (lit "high") && riskLevelIs f (lit "medium")) =
      riskLevelIs f (lit "medium") := by
  cases hM : riskLevelIs f (lit "medium")
  · simp
  · suffices h : riskLevelIs f (lit "high") = false by simp [h]
    unfold riskLevelIs at hM ⊢
    rcases f with s | n | b | _ | l | l <;> simp_all
    rcases hg : getKey l (lit "risk_level") with _ | v <;> simp_all
    rcases v with s | n | b | _ | l' | l' <;> simp_all
    subst hM
    decide

/-- The counting loop of `RiskScoringAgent.process` computes the pair of
`countP`s of the high and (exclusively) medium findings. -/
theorem riskCounts_go (findings : List (Str × PyVal)) :
    ∀ a b : Nat,
      findings.foldl
        (fun acc kv =>
          if riskLevelIs kv.2 (lit "high") then (acc.1 + 1, acc.2)
          else if riskLevelIs kv.2 (lit "medium") then (acc.1, acc.2 + 1)
          else acc)
        (a, b) =
      (a + findings.countP (fun kv => riskLevelIs kv.2 (lit "high")),
       b + findings.countP (fun kv => riskLevelIs kv.2 (lit "medium"))) := by
  induction findings with
  | nil => simp
  | cons kv t ih =>
    intro a b
    by_cases hH : riskLevelIs kv.2 (lit "high") = true
    · have hM : riskLevelIs kv.2 (lit "medium") = false := by
        have := riskLevelIs_excl kv.2
        rw [hH] at this
        simpa using this.symm
      simp [List.foldl_cons, hH, ih, List.countP_cons, hM]
      omega
    · simp only [Bool.not_eq_true] at hH
      by_cases hM : riskLevelIs kv.2 (lit "medium") = true
      · simp [List.foldl_cons, hH, hM, ih, List.countP_cons]
        omega
      · simp only [Bool.not_eq_true] at hM
        simp [List.foldl_cons, hH, hM, ih, List.countP_cons]

/-- `riskCounts` in closed form. -/
theorem riskCounts_eq (findings : List (Str × PyVal)) :
    riskCounts findings =
      (findings.countP (fun kv => riskLevelIs kv.2 (lit "high")),
       findings.countP (fun kv => riskLevelIs kv.2 (lit "medium"))) := by
  unfold riskCounts
  have := riskCounts_go findings 0 0
  simpa using this

/-- The findings mapping of end-to-end scenario C. -/
def exampleFindingsC : List (Str × PyVal) :=
  [(lit "c1", .obj [(lit "risk_level", .str (lit "high"))]),
   (lit "c2", .obj [(lit "risk_level", .str (lit "medium"))]),
   (lit "c3", .obj [(lit "risk_level", .str (lit "low"))])]

/-- C2: Risk Aggregation is a pure, deterministic function of the
`compliance_findings` mapping.  For every findings mapping the stored
summary carries `overall_score = min(100, 10*#high + 5*#medium)` (only
`high`/`medium` tiers contribute) and
`risk_level = Critical (>50) / Moderate (>20) / Low`; equal findings
mappings give equal summaries; the empty mapping yields score `0`,
level `Low`; and scenario C's findings yield score `15`, level `Low`. -/
theorem C2_risk_aggregation :
    (∀ st : ContractState,
      (riskScoringProcess st).risk_summary =
        riskSummaryOf st.compliance_findings) ∧
    (∀ findings : List (Str × PyVal),
      riskSummaryOf findings =
        (let high := findings.countP (fun kv => riskLevelIs kv.2 (lit "high"))
         let medium := findings.countP (fun kv => riskLevelIs kv.2 (lit "medium"))
         let score := min 100 (high * 10 + medium * 5)
         PyVal.obj
           [(lit "overall_score", .int score),
            (lit "risk_level", .str
              (if score > 50 then lit "Critical"
               else if score > 20 then lit "Moderate"
               else lit "Low")),
            (lit "breakdown", .obj
              [(lit "high", .int high), (lit "medium", .int medium)])])) ∧
    (∀ st₁ st₂ : ContractState,
      st₁.compliance_findings = st₂.compliance_findings →
      (riskScoringProcess st₁).risk_summary =
        (riskScoringProcess st₂).risk_summary) ∧
    riskSummaryOf [] =
      PyVal.obj
        [(lit "overall_score", .int 0),
         (lit "risk_level", .str (lit "Low")),
         (lit "breakdown", .obj [(lit "high", .int 0), (lit "medium", .int 0)])] ∧
    riskSummaryOf exampleFindingsC =
      PyVal.obj
        [(lit "overall_score", .int 15),
         (lit "risk_level", .str (lit "Low")),
         (lit "breakdown", .obj [(lit "high", .int 1), (lit "medium", .int 1)])] := by
  refine ⟨fun st => rfl, fun findings => ?_, fun st₁ st₂ h => ?_, rfl, rfl⟩
  · unfold riskSummaryOf
    rw [riskCounts_eq]
  · simp only [riskScoringProcess, addAudit]
    rw [h]

/-- Witness for C2: scenario C through `riskScoringProcess` itself,
with the determinism conjunct discharged at two concrete states. -/
theorem C2_risk_aggregation_witness :
    (riskScoringProcess { compliance_findings := exampleFindingsC }).risk_summary =
      riskSummaryOf exampleFindingsC ∧
    (riskScoringProcess { compliance_findings := exampleFindingsC }).risk_summary =
      (riskScoringProcess
        { compliance_findings := exampleFindingsC, raw_text := lit "other" }).risk_summary :=
  ⟨C2_risk_aggregation.1 _,
   C2_risk_aggregation.2.2.1 _ _ rfl⟩

/-! ## C5 / C6: Risk Classifier -/

/-- The finding of end-to-end scenario B. -/
def exampleFindingB : List (Str × PyVal) :=
  [(lit "issue_summary",
    .str (lit "This clause is a clear violation of mandatory disclosure rules")),
   (lit "missing_requirements", .arr [])]

/-- C5: without a valid explicit `risk_level`, the heuristic applies in
strict priority order on the lower-cased combined text: any high-risk
keyword gives `high` (even when a medium-risk keyword is also present);
else `missing_requirements` of length ≥ 3 gives `high`; else any
medium-risk keyword gives `medium`; else a non-empty
`missing_requirements` gives `medium`; else `low` whether or not a
positive keyword appears.  Scenario B's finding classifies `high`. -/
theorem C5_heuristic_priority :
    (∀ parsed : List (Str × PyVal),
      validExplicitRisk parsed = none →
      determineRiskLevel parsed = heuristicRiskLevel parsed) ∧
    (∀ parsed : List (Str × PyVal),
      high_indicators.any (fun kw => containsSub (combinedText parsed) kw) = true →
      heuristicRiskLevel parsed = lit "high") ∧
    (∀ parsed : List (Str × PyVal),
      high_indicators.any (fun kw => containsSub (combinedText parsed) kw) = false →
      missingCount parsed ≥ 3 →
      heuristicRiskLevel parsed = lit "high") ∧
    (∀ parsed : List (Str × PyVal),
      high_indicators.any (fun kw => containsSub (combinedText parsed) kw) = false →
      missingCount parsed < 3 →
      medium_indicators.any (fun kw => containsSub (combinedText parsed) kw) = true →
      heuristicRiskLevel parsed = lit "medium") ∧
    (∀ parsed : List (Str × PyVal),
      high_indicators.any (fun kw => containsSub (combinedText parsed) kw) = false →
      medium_indicators.any (fun kw => containsSub (combinedText parsed) kw) = false →
      missingCount parsed < 3 → missingCount parsed ≥ 1 →
      heuristicRiskLevel parsed = lit "medium") ∧
    (∀ parsed : List (Str × PyVal),
      high_indicators.any (fun kw => containsSub (combinedText parsed) kw) = false →
      medium_indicators.any (fun kw => containsSub (combinedText parsed) kw) = false →
      missingCount parsed = 0 →
      heuristicRiskLevel parsed = lit "low") ∧
    determineRiskLevel exampleFindingB = lit "high" := by
  refine ⟨?_, ?_, ?_, ?_, ?_, ?_, by decide⟩
  · intro parsed h
    unfold determineRiskLevel
    rw [h]
  · intro parsed h
    unfold heuristicRiskLevel
    simp only [h, if_true]
  · intro parsed h h3
    unfold heuristicRiskLevel
    simp only [h, Bool.false_eq_true, if_false, if_pos h3]
  · intro parsed h h3 hm
    unfold heuristicRiskLevel
    have h3' : ¬ missingCount parsed ≥ 3 := by omega
    simp only [h, Bool.false_eq_true, if_false, if_neg h3', hm, if_true]
  · intro parsed h hm h3 h1
    unfold heuristicRiskLevel
    have h3' : ¬ missingCount parsed ≥ 3 := by omega
    have h1' : missingCount parsed > 0 := by omega
    simp only [h, hm, Bool.false_eq_true, if_false, if_neg h3', if_pos h1']
  · intro parsed h hm h0
    unfold heuristicRiskLevel
    have h3' : ¬ missingCount parsed ≥ 3 := by omega
    have h1' : ¬ missingCount parsed > 0 := by omega
    simp only [h, hm, Bool.false_eq_true, if_false, if_neg h3', if_neg h1']
    split <;> rfl

/-- Witness for C5: scenario B discharges the high-keyword conjunct
(`"violation"` and `"mandatory"` occur, and so does the medium keyword
`"should"`-free text; the classification is `high`). -/
theorem C5_heuristic_priority_witness :
    validExplicitRisk exampleFindingB = none ∧
    high_indicators.any
      (fun kw => containsSub (combinedText exampleFindingB) kw) = true ∧
    determineRiskLevel exampleFindingB = lit "high" :=
  ⟨by decide,
   by decide,
   by
    rw [C5_heuristic_priority.1 exampleFindingB (by decide)]
    exact C5_heuristic_priority.2.1 exampleFindingB (by decide)⟩

/-- Updating a key then reading it back gives the new value. -/
theorem getKey_setKey (d : List (Str × PyVal)) (k : Str) (v : PyVal) :
    getKey (setKey d k v) k = some v := by
  induction d with
  | nil => simp [setKey, getKey]
  | cons kv rest ih =>
    by_cases h : kv.1 = k
    · simp [setKey, getKey, h]
    · simp [setKey, getKey, h, ih]

/-- The three tier strings are fixed points of the normalisation
`str(...).lower().strip()`. -/
theorem tier_normalised {t : Str} (h : t ∈ RISK_LEVELS) :
    pyStrip (pyLower (pyStr (.str t))) = t := by
  simp only [RISK_LEVELS, List.mem_cons, List.mem_singleton,
    List.not_mem_nil, or_false] at h
  rcases h with h | h | h <;> subst h <;> decide

/-- C6: a valid explicit `risk_level` (lower-cased, stripped, one of
`low`/`medium`/`high`) is returned unchanged, depends on no other
field, and classification is idempotent: classifying the finding again
— or a finding updated with the classifier's own output — returns the
same tier. -/
theorem C6_explicit_idempotent :
    ∀ (parsed : List (Str × PyVal)) (t : Str),
      validExplicitRisk parsed = some t →
      determineRiskLevel parsed = t ∧
      t ∈ RISK_LEVELS ∧
      (∀ parsed₂ : List (Str × PyVal),
        getKey parsed₂ (lit "risk_level") = getKey parsed (lit "risk_level") →
        determineRiskLevel parsed₂ = t) ∧
      determineRiskLevel
        (setKey parsed (lit "risk_level") (.str (determineRiskLevel parsed))) =
        determineRiskLevel parsed := by
  intro parsed t h
  have hmem : t ∈ RISK_LEVELS := by
    unfold validExplicitRisk at h
    rcases hg : getKey parsed (lit "risk_level") with _ | v <;> rw [hg] at h
    · exact absurd h (by simp)
    · by_cases hv : pyStrip (pyLower (pyStr v)) ∈ RISK_LEVELS
      · simp only [if_pos hv, Option.some.injEq] at h
        rwa [← h]
      · simp [hv] at h
  have hdet : determineRiskLevel parsed = t := by
    unfold determineRiskLevel
    rw [h]
  refine ⟨hdet, hmem, ?_, ?_⟩
  · intro parsed₂ h₂
    have hv₂ : validExplicitRisk parsed₂ = some t := by
      unfold validExplicitRisk at h ⊢
      rw [h₂]
      exact h
    unfold determineRiskLevel
    rw [hv₂]
  · rw [hdet]
    have hv' : validExplicitRisk
        (setKey parsed (lit "risk_level") (.str t)) = some t := by
      unfold validExplicitRisk
      rw [getKey_setKey]
      simp [tier_normalised hmem, hmem]
    unfold determineRiskLevel
    rw [hv']

/-- Witness for C6 at a concrete finding carrying
`risk_level: " Medium "` (normalising to `medium`). -/
theorem C6_explicit_idempotent_witness :
    determineRiskLevel
      [(lit "risk_level", .str (lit " Medium ")),
       (lit "issue_summary", .str (lit "clear violation of mandatory rules"))] =
      lit "medium" :=
  (C6_explicit_idempotent _ (lit "medium") (by decide)).1

/-! ## C8: Rate Limiter -/

/-- C8: `try_acquire` never sleeps (it is a pure step function; the
only `asyncio.sleep` in the source sits in `acquire`): it refills the
bucket by `elapsed/60 * rpm` capped at `rpm` (the period is fixed to 60
seconds at construction), returns `true` consuming exactly one token
when the refilled count is at least 1 and the optional RPS spacing is
satisfied, returns `false` immediately with the state untouched when
the RPS gate denies, returns `false` without consuming a token when the
refilled count is below 1 — in particular with the bucket exhausted and
no time elapsed. -/
theorem C8_try_acquire :
    (∀ (rpm : Int) (rps now : ℚ), (mkRateLimiter rpm rps now).rpm_period = 60) ∧
    (∀ (rl : RateLimiter) (now1 now2 now3 : ℚ),
      (rl.rps > 0 → rl.rps_interval - (now1 - rl.last_request_time) > 0 →
        tryAcquire rl now1 now2 now3 = (false, rl)) ∧
      (rpsOk rl now1 → refilledTokens rl now2 ≥ 1 →
        tryAcquire rl now1 now2 now3 =
          (true,
            { rl with
                rpm_tokens := refilledTokens rl now2 - 1,
                rpm_updated_at :=
                  if (now2 - rl.rpm_updated_at) / rl.rpm_period * rl.rpm > 0
                  then now2 else rl.rpm_updated_at,
                last_request_time :=
                  if rl.rps > 0 then now3 else rl.last_request_time })) ∧
      (rpsOk rl now1 → refilledTokens rl now2 < 1 →
        tryAcquire rl now1 now2 now3 =
          (false,
            { rl with
                rpm_tokens := refilledTokens rl now2,
                rpm_updated_at :=
                  if (now2 - rl.rpm_updated_at) / rl.rpm_period * rl.rpm > 0
                  then now2 else rl.rpm_updated_at })) ∧
      (rpsOk rl now1 → now2 = rl.rpm_updated_at → rl.rpm_tokens < 1 →
        (tryAcquire rl now1 now2 now3).1 = false)) := by
  refine ⟨fun rpm rps now => rfl, fun rl now1 now2 now3 => ⟨?_, ?_, ?_, ?_⟩⟩
  · intro h1 h2
    unfold tryAcquire
    rw [if_pos ⟨h1, h2⟩]
  · intro hrps htok
    have htok' := htok
    unfold refilledTokens at htok'
    unfold tryAcquire
    rw [if_neg hrps]
    simp only [refilledTokens]
    rw [if_pos htok']
  · intro hrps htok
    have htok' := not_le.mpr htok
    unfold refilledTokens at htok'
    unfold tryAcquire
    rw [if_neg hrps]
    simp only [refilledTokens]
    rw [if_neg htok']
  · intro hrps hnow htok
    unfold tryAcquire
    rw [if_neg hrps]
    have hz : (now2 - rl.rpm_updated_at) / rl.rpm_period * rl.rpm = 0 := by
      rw [hnow]; ring
    simp only [hz]
    have hng : ¬ ((0 : ℚ) > 0) := lt_irrefl 0
    rw [if_neg hng, if_neg (not_le.mpr htok)]

/-- Witness for C8: a freshly constructed limiter (10 rpm, no RPS gate)
admits at time 0, consuming one of its 10 tokens; the same limiter with
an empty bucket and no elapsed time is refused. -/
theorem C8_try_acquire_witness :
    ((tryAcquire (mkRateLimiter 10 0 0) 0 0 0).1 = true ∧
      (tryAcquire (mkRateLimiter 10 0 0) 0 0 0).2.rpm_tokens = 9) ∧
    ((tryAcquire { mkRateLimiter 10 0 0 with rpm_tokens := 0 } 0 0 0).1 = false) := by
  refine ⟨?_, ?_⟩
  · have h := ((C8_try_acquire.2 (mkRateLimiter 10 0 0) 0 0 0).2.1
      (by norm_num [rpsOk, mkRateLimiter])
      (by norm_num [refilledTokens, mkRateLimiter]))
    rw [h]
    refine ⟨rfl, ?_⟩
    norm_num [refilledTokens, mkRateLimiter]
  · exact (C8_try_acquire.2 { mkRateLimiter 10 0 0 with rpm_tokens := 0 }
      0 0 0).2.2.2 (by norm_num [rpsOk, mkRateLimiter])
      (by norm_num [mkRateLimiter]) (by norm_num [mkRateLimiter])

/-! ## C1: Failover Dispatcher -/

/-- The event trace of `hybridGo` is the per-adapter projection of a
prefix of the client list: each adapter contributes at most one event. -/
theorem hybridGo_events (clients : List (Str × Option HClient)) :
    ∀ errors, ∃ k, k ≤ clients.length ∧
      (hybridGo clients errors).2 = (clients.take k).filterMap evOf := by
  induction clients with
  | nil => exact fun errors => ⟨0, by simp, by simp [hybridGo]⟩
  | cons a rest ih =>
    intro errors
    obtain ⟨name, oc⟩ := a
    cases oc with
    | none =>
      obtain ⟨k, hk, he⟩ := ih errors
      exact ⟨k + 1, by simp; omega, by simpa [hybridGo, evOf] using he⟩
    | some c =>
      cases htr : c.tryAcq with
      | false =>
        obtain ⟨k, hk, he⟩ := ih errors
        refine ⟨k + 1, by simp; omega, ?_⟩
        simp [hybridGo, htr, evOf, he]
      | true =>
        cases hg : c.gen with
        | ok t =>
          refine ⟨1, by simp, ?_⟩
          simp [hybridGo, htr, hg, evOf]
        | error e =>
          obtain ⟨k, hk, he⟩ := ih (errors ++ [hybridErrMsg name e])
          refine ⟨k + 1, by simp; omega, ?_⟩
          simp [hybridGo, htr, hg, evOf, he]

/-- When no adapter succeeds, the loop exhausts the list, aggregates
one failure reason per attempted-and-failed adapter, and consults every
adapter exactly once. -/
theorem hybridGo_allfail (clients : List (Str × Option HClient))
    (h : ∀ a ∈ clients, isSuccessAdapter a = false) :
    ∀ errors, hybridGo clients errors =
      (.error (errors ++ clients.filterMap errOf), clients.filterMap evOf) := by
  induction clients with
  | nil => intro errors; simp [hybridGo]
  | cons a rest ih =>
    intro errors
    have hrest : ∀ a ∈ rest, isSuccessAdapter a = false :=
      fun a ha => h a (List.mem_cons_of_mem _ ha)
    have ha := h a (List.mem_cons_self _ _)
    obtain ⟨name, oc⟩ := a
    cases oc with
    | none => simp [hybridGo, errOf, evOf, ih hrest]
    | some c =>
      cases htr : c.tryAcq with
      | false => simp [hybridGo, htr, errOf, evOf, ih hrest]
      | true =>
        cases hg : c.gen with
        | ok t => simp [isSuccessAdapter, htr, hg] at ha
        | error e =>
          simp [hybridGo, htr, hg, errOf, evOf, ih hrest]

/-- The first adapter whose limiter admits and whose `generate`
succeeds has its text returned at once; adapters after it contribute no
event at all. -/
theorem hybridGo_success (pre : List (Str × Option HClient)) :
    ∀ (errors : List Str) (name : Str) (c : HClient) (t : Str)
      (post : List (Str × Option HClient)),
      c.tryAcq = true → c.gen = .ok t →
      (∀ a ∈ pre, isSuccessAdapter a = false) →
      hybridGo (pre ++ (name, some c) :: post) errors =
        (.ok t, pre.filterMap evOf ++ [.attempted name]) := by
  induction pre with
  | nil =>
    intro errors name c t post htr hg _
    simp [hybridGo, htr, hg]
  | cons a rest ih =>
    intro errors name c t post htr hg hpre
    have hrest : ∀ x ∈ rest, isSuccessAdapter x = false :=
      fun x hx => hpre x (List.mem_cons_of_mem _ hx)
    have ha := hpre a (List.mem_cons_self _ _)
    obtain ⟨name', oc⟩ := a
    cases oc with
    | none => simp [hybridGo, evOf, ih errors name c t post htr hg hrest]
    | some c' =>
      cases htr' : c'.tryAcq with
      | false =>
        simp [hybridGo, htr', evOf, ih errors name c t post htr hg hrest]
      | true =>
        cases hg' : c'.gen with
        | ok t' => simp [isSuccessAdapter, htr', hg'] at ha
        | error e' =>
          simp [hybridGo, htr', hg', evOf,
            ih (errors ++ [hybridErrMsg name' e']) name c t post htr hg hrest]

/-- C1: within one `HybridLLMClient.generate` call, each adapter is
consulted at most once and in list order (the event trace projects a
prefix of the adapter list); an adapter whose `try_acquire` returns
false is skipped without recording an error; the first adapter whose
`generate` succeeds has its text returned immediately with no later
adapter consulted; and when no adapter succeeds, the single terminal
exception aggregates exactly one failure reason per adapter that was
actually attempted and failed. -/
theorem C1_failover_dispatcher :
    ∀ clients : List (Str × Option HClient),
      (∃ k, k ≤ clients.length ∧
        (hybridGenerate clients).2 = (clients.take k).filterMap evOf) ∧
      (∀ a ∈ clients, (∀ c, a.2 = some c → c.tryAcq = false) →
        errOf a = none) ∧
      (∀ a : Str × Option HClient,
        (errOf a).isSome = true ↔
          ∃ c e, a.2 = some c ∧ c.tryAcq = true ∧ c.gen = .error e) ∧
      (∀ pre name c t post,
        clients = pre ++ (name, some c) :: post →
        c.tryAcq = true → c.gen = .ok t →
        (∀ a ∈ pre, isSuccessAdapter a = false) →
        hybridGenerate clients = (.ok t, pre.filterMap evOf ++ [.attempted name])) ∧
      ((∀ a ∈ clients, isSuccessAdapter a = false) →
        hybridGenerate clients =
          (.error (clients.filterMap errOf), clients.filterMap evOf)) := by
  intro clients
  refine ⟨hybridGo_events clients [], ?_, ?_, ?_, ?_⟩
  · intro a _ h
    obtain ⟨name, oc⟩ := a
    cases oc with
    | none => rfl
    | some c => simp [errOf, h c rfl]
  · intro a
    obtain ⟨name, oc⟩ := a
    cases oc with
    | none => simp [errOf]
    | some c =>
      cases htr : c.tryAcq with
      | false => simp [errOf, htr]
      | true =>
        cases hg : c.gen with
        | ok t => simp [errOf, htr, hg]
        | error e => simp [errOf, htr, hg]
  · intro pre name c t post hcl htr hg hpre
    rw [hcl]
    exact hybridGo_success pre [] name c t post htr hg hpre
  · intro h
    simpa using hybridGo_allfail clients h []

/-- Witness for C1: the spec's two-adapter scenario — the first adapter
always raises a rate-limit-flavoured error, the second succeeds; the
call returns the second adapter's text and each adapter is consulted
exactly once. -/
theorem C1_failover_dispatcher_witness :
    hybridGenerate
      [(lit "OpenAI",
        some { tryAcq := true, gen := .error (lit "Error 429 Too Many Requests") }),
       (lit "Gemini", some { tryAcq := true, gen := .ok (lit "answer") })] =
      (.ok (lit "answer"),
       [.attempted (lit "OpenAI"), .attempted (lit "Gemini")]) := by
  have h := (C1_failover_dispatcher
      [(lit "OpenAI",
        some { tryAcq := true, gen := .error (lit "Error 429 Too Many Requests") }),
       (lit "Gemini", some { tryAcq := true, gen := .ok (lit "answer") })]).2.2.2.1
    [(lit "OpenAI",
      some { tryAcq := true, gen := .error (lit "Error 429 Too Many Requests") })]
    (lit "Gemini") { tryAcq := true, gen := .ok (lit "answer") } (lit "answer") []
    rfl rfl rfl (by decide)
  rw [h]
  rfl

/-! ## Stage-effect lemmas (shared by the audit-log and orchestrator
claims) -/

/-- `IntentAnalysisAgent.process` appends exactly one audit entry on
every path and never touches the drafted clauses or the contract. -/
theorem intentProcess_effects (o : DraftOracle) (st : ContractState) :
    ∃ e, (intentProcess o st).audit_log = st.audit_log ++ [e] ∧
      (intentProcess o st).drafted_clauses = st.drafted_clauses ∧
      (intentProcess o st).final_contract = st.final_contract := by
  unfold intentProcess intentErrHandler
  dsimp only
  repeat' split
  all_goals exact ⟨_, rfl, rfl, rfl⟩

/-- `PolicyCheckAgent.process` appends exactly one audit entry on every
path and never touches the drafted clauses or the contract. -/
theorem policyProcess_effects (o : DraftOracle) (st : ContractState) :
    ∃ e, (policyProcess o st).audit_log = st.audit_log ++ [e] ∧
      (policyProcess o st).drafted_clauses = st.drafted_clauses ∧
      (policyProcess o st).final_contract = st.final_contract := by
  unfold policyProcess policyErrHandler
  dsimp only
  repeat' split
  all_goals exact ⟨_, rfl, rfl, rfl⟩

/-- `TemplateSelectionAgent.process` appends exactly one audit entry on
every path and never touches the drafted clauses or the contract. -/
theorem templateProcess_effects (o : DraftOracle) (st : ContractState) :
    ∃ e, (templateProcess o st).audit_log = st.audit_log ++ [e] ∧
      (templateProcess o st).drafted_clauses = st.drafted_clauses ∧
      (templateProcess o st).final_contract = st.final_contract := by
  unfold templateProcess templateErrHandler
  dsimp only
  repeat' split
  all_goals exact ⟨_, rfl, rfl, rfl⟩

/-- `GenerationAgent.process` appends exactly one audit entry on every
path. -/
theorem generationProcess_effects (o : DraftOracle) (st : ContractState) :
    ∃ e, (generationProcess o st).audit_log = st.audit_log ++ [e] ∧
      (generationProcess o st).final_contract = st.final_contract := by
  unfold generationProcess
  dsimp only
  repeat' split
  all_goals exact ⟨_, rfl, rfl⟩

/-- `SelfReviewAgent.process` appends exactly one audit entry on every
path and preserves every drafted clause's text (it only annotates
review fields). -/
theorem reviewProcess_effects (o : DraftOracle) (st : ContractState) :
    ∃ e, (reviewProcess o st).audit_log = st.audit_log ++ [e] ∧
      (reviewProcess o st).drafted_clauses.map (·.text) =
        st.drafted_clauses.map (·.text) ∧
      (reviewProcess o st).final_contract = st.final_contract := by
  unfold reviewProcess reviewErrHandler
  dsimp only
  repeat' split
  all_goals refine ⟨_, rfl, ?_, rfl⟩
  all_goals first
    | rfl
    | simp [addAudit, List.map_map, Function.comp]

/-- `RiskScoringAgent.process` appends exactly one audit entry. -/
theorem riskScoringProcess_effects (st : ContractState) :
    ∃ e, (riskScoringProcess st).audit_log = st.audit_log ++ [e] :=
  ⟨_, rfl⟩

/-- `ComplianceReasoningAgent.process` appends exactly one audit
entry. -/
theorem reasoningProcess_effects (rGen : Str → LLMResult)
    (jsonLoads : JsonParser) (st : ContractState) :
    ∃ e, (reasoningProcess rGen jsonLoads st).audit_log =
      st.audit_log ++ [e] :=
  ⟨_, rfl⟩

/-- `JurisdictionResolverAgent.process` only ever appends to the audit
log — one entry on the metadata path and on the successful or
non-matching LLM path, nothing on the exception path. -/
theorem jurisdictionProcess_effects (gen : LLMResult)
    (jsonLoads : JsonParser) (st : ContractState) :
    ∃ t, (jurisdictionProcess gen jsonLoads st).audit_log =
      st.audit_log ++ t := by
  unfold jurisdictionProcess
  repeat' split
  · exact ⟨_, rfl⟩
  · exact ⟨[], by simp [addAudit]⟩
  · exact ⟨_, rfl⟩
  · exact ⟨[], by simp [addAudit]⟩
  · exact ⟨_, rfl⟩

/-! ## C9: audit log (corrected) -/

/-- Counterexample to C9 as stated: on the Jurisdiction Resolver's
exception path (no metadata jurisdiction, LLM call raises) the stage
appends no audit entry at all, so "every stage appends at least one
entry ... including on its internal error/fallback paths" fails. -/
theorem C9_counterexample_jurisdiction_no_entry :
    (jurisdictionProcess (.error (lit "LLM unavailable"))
      (fun _ => .error (lit "parse error"))
      { raw_text := lit "some contract text" }).audit_log = [] :=
  rfl

/-- When every findings value is a dict carrying a `status` key, the
remediation loop completes. -/
theorem remediateAll_ok :
    ∀ findings : List (Str × PyVal),
      (∀ kf ∈ findings, ∃ kvs, kf.2 = PyVal.obj kvs ∧
        (getKey kvs (lit "status")).isSome = true) →
      (remediateAll findings).isOk = true := by
  intro findings
  induction findings with
  | nil => intro _; rfl
  | cons kf rest ih =>
    intro h
    obtain ⟨kvs, hkv, hst⟩ := h kf (List.mem_cons_self _ _)
    obtain ⟨k, f⟩ := kf
    simp only at hkv
    subst hkv
    have hrest := ih (fun z hz => h z (List.mem_cons_of_mem _ hz))
    rcases hs : getKey kvs (lit "status") with _ | status
    · rw [hs] at hst; simp at hst
    · rcases hr : remediateAll rest with e | rest'
      · rw [hr] at hrest; simp [Except.isOk, Except.toBool] at hrest
      · by_cases hc : statusIsCompliant status = true
        · simp [remediateAll, remediateFinding, hs, hc, hr, Except.isOk,
            Except.toBool]
        · simp [remediateAll, remediateFinding, hs, hc, hr, Except.isOk,
            Except.toBool]

/-- C9 (amended): the audit log is append-only — each of the twelve
stage processors only ever extends it, never removes, truncates or
reorders entries — and every stage appends at least one entry on every
internal path it completes, with exactly these exceptions: the
Ingestion stage returns without an entry when `raw_text` is empty; the
Jurisdiction Resolver's exception path appends none; and the
Remediation stage appends its single entry only when it completes,
which it does whenever every finding carries a `status` key (otherwise
it raises, aborting the run with no entry). -/
theorem C9_audit_append_only :
    (∀ (o : DraftOracle) (st : ContractState),
      st.audit_log <+: (intentProcess o st).audit_log ∧
      st.audit_log.length < (intentProcess o st).audit_log.length) ∧
    (∀ (o : DraftOracle) (st : ContractState),
      st.audit_log <+: (policyProcess o st).audit_log ∧
      st.audit_log.length < (policyProcess o st).audit_log.length) ∧
    (∀ (o : DraftOracle) (st : ContractState),
      st.audit_log <+: (templateProcess o st).audit_log ∧
      st.audit_log.length < (templateProcess o st).audit_log.length) ∧
    (∀ (o : DraftOracle) (st : ContractState),
      st.audit_log <+: (generationProcess o st).audit_log ∧
      st.audit_log.length < (generationProcess o st).audit_log.length) ∧
    (∀ (o : DraftOracle) (st : ContractState),
      st.audit_log <+: (reviewProcess o st).audit_log ∧
      st.audit_log.length < (reviewProcess o st).audit_log.length) ∧
    (∀ st : ContractState,
      st.audit_log <+: (riskScoringProcess st).audit_log ∧
      st.audit_log.length < (riskScoringProcess st).audit_log.length) ∧
    (∀ (rGen : Str → LLMResult) (jsonLoads : JsonParser) (st : ContractState),
      st.audit_log <+: (reasoningProcess rGen jsonLoads st).audit_log ∧
      st.audit_log.length < (reasoningProcess rGen jsonLoads st).audit_log.length) ∧
    (∀ (gen : LLMResult) (jsonLoads : JsonParser) (st : ContractState),
      st.audit_log <+: (jurisdictionProcess gen jsonLoads st).audit_log) ∧
    (∀ (gen : LLMResult) (jsonLoads : JsonParser) (st : ContractState),
      pyTruthy (getKeyD st.metadata (lit "jurisdiction") .null) = true →
      st.audit_log.length < (jurisdictionProcess gen jsonLoads st).audit_log.length) ∧
    (∀ (response : Str) (jsonLoads : JsonParser) (st : ContractState),
      pyTruthy (getKeyD st.metadata (lit "jurisdiction") .null) = false →
      (∀ m, extractJson response = some m → (jsonLoads m).isOk = true) →
      st.audit_log.length <
        (jurisdictionProcess (.ok response) jsonLoads st).audit_log.length) ∧
    (∀ (e : Str) (jsonLoads : JsonParser) (st : ContractState),
      pyTruthy (getKeyD st.metadata (lit "jurisdiction") .null) = false →
      (jurisdictionProcess (.error e) jsonLoads st).audit_log = st.audit_log) ∧
    (∀ st : ContractState, st.audit_log <+: (ingestionProcess st).audit_log) ∧
    (∀ st : ContractState, st.raw_text ≠ [] →
      st.audit_log.length < (ingestionProcess st).audit_log.length) ∧
    (∀ st : ContractState, st.raw_text = [] →
      (ingestionProcess st).audit_log = st.audit_log) ∧
    (∀ (gen : LLMResult) (parseClauses : Str → Except Str (List ClauseRec))
       (st : ContractState),
      st.audit_log <+: (clauseExtractionProcess gen parseClauses st).audit_log ∧
      st.audit_log.length <
        (clauseExtractionProcess gen parseClauses st).audit_log.length) ∧
    (∀ (search : Except Str (List StatuteDoc)) (st : ContractState),
      st.audit_log <+: (statuteRetrievalProcess search st).audit_log ∧
      st.audit_log.length <
        (statuteRetrievalProcess search st).audit_log.length) ∧
    (∀ (st st' : ContractState), remediationProcess st = .ok st' →
      st.audit_log <+: st'.audit_log ∧
      st.audit_log.length < st'.audit_log.length) ∧
    (∀ st : ContractState,
      (∀ kf ∈ st.compliance_findings, ∃ kvs, kf.2 = PyVal.obj kvs ∧
        (getKey kvs (lit "status")).isSome = true) →
      (remediationProcess st).isOk = true) := by
  refine ⟨?_, ?_, ?_, ?_, ?_, ?_, ?_, ?_, ?_, ?_, ?_, ?_, ?_, ?_, ?_, ?_, ?_, ?_⟩
  · intro o st
    obtain ⟨e, he, -, -⟩ := intentProcess_effects o st
    rw [he]; simp
  · intro o st
    obtain ⟨e, he, -, -⟩ := policyProcess_effects o st
    rw [he]; simp
  · intro o st
    obtain ⟨e, he, -, -⟩ := templateProcess_effects o st
    rw [he]; simp
  · intro o st
    obtain ⟨e, he, -⟩ := generationProcess_effects o st
    rw [he]; simp
  · intro o st
    obtain ⟨e, he, -, -⟩ := reviewProcess_effects o st
    rw [he]; simp
  · intro st
    obtain ⟨e, he⟩ := riskScoringProcess_effects st
    rw [he]; simp
  · intro rGen jsonLoads st
    obtain ⟨e, he⟩ := reasoningProcess_effects rGen jsonLoads st
    rw [he]; simp
  · intro gen jsonLoads st
    obtain ⟨t, ht⟩ := jurisdictionProcess_effects gen jsonLoads st
    rw [ht]; simp
  · intro gen jsonLoads st h
    unfold jurisdictionProcess
    rw [if_pos h]
    simp [addAudit]
  · intro response jsonLoads st h hok
    unfold jurisdictionProcess
    rw [if_neg (by simp [h])]
    rcases hm : extractJson response with _ | m
    · simp [hm, addAudit]
    · have hok' := hok m hm
      rcases hj : jsonLoads m with v | v
      · rw [hj] at hok'
        simp [Except.isOk, Except.toBool] at hok'
      · simp [hm, hj, addAudit]
  · intro e jsonLoads st h
    unfold jurisdictionProcess
    rw [if_neg (by simp [h])]
  · intro st
    unfold ingestionProcess
    split
    · exact List.prefix_refl _
    · simp [addAudit]
  · intro st h
    unfold ingestionProcess
    rw [if_neg h]
    simp [addAudit]
  · intro st h
    unfold ingestionProcess
    rw [if_pos h]
  · intro gen parseClauses st
    constructor
    · exact ⟨_, rfl⟩
    · simp [clauseExtractionProcess, addAudit]
  · intro search st
    rcases search with e | docs
    · exact ⟨⟨_, rfl⟩, by simp [statuteRetrievalProcess, addAudit]⟩
    · exact ⟨⟨_, rfl⟩, by simp [statuteRetrievalProcess, addAudit]⟩
  · intro st st' h
    unfold remediationProcess at h
    rcases hr : remediateAll st.compliance_findings with e | findings <;>
      rw [hr] at h
    · exact absurd h (by simp)
    · simp only [Except.ok.injEq] at h
      subst h
      exact ⟨⟨_, rfl⟩, by simp [addAudit]⟩
  · intro st h
    unfold remediationProcess
    rcases hr : remediateAll st.compliance_findings with e | findings
    · have hok := remediateAll_ok st.compliance_findings h
      rw [hr] at hok
      simp [Except.isOk, Except.toBool] at hok
    · rfl

/-- Witness for C9 (amended): the jurisdiction stage grows the audit
log on its metadata path at a concrete state. -/
theorem C9_audit_append_only_witness :
    ([] : List AuditEntry).length <
      (jurisdictionProcess (.ok (lit "ignored")) (fun _ => .ok .null)
        { metadata := [(lit "jurisdiction", .str (lit "Delhi"))] }).audit_log.length :=
  C9_audit_append_only.2.2.2.2.2.2.2.2.1
    (.ok (lit "ignored")) (fun _ => .ok .null)
    { metadata := [(lit "jurisdiction", .str (lit "Delhi"))] } (by decide)

/-! ## C10: Compliance Reasoning parse-failure branch -/

/-- Updating one key leaves the others unchanged. -/
theorem getKey_setKey_ne (d : List (Str × PyVal)) (k k' : Str) (v : PyVal)
    (h : k ≠ k') : getKey (setKey d k v) k' = getKey d k' := by
  induction d with
  | nil => simp [setKey, getKey, h]
  | cons kv rest ih =>
    by_cases hk : kv.1 = k
    · simp [setKey, getKey, hk, h]
    · simp [setKey, getKey, hk, ih]

/-- Folding `setKey` over clauses with pairwise-distinct ids stores, for
each clause, exactly its computed finding. -/
theorem foldl_setKey_lookup (f : ClauseRec → PyVal) :
    ∀ (clauses : List ClauseRec) (acc : List (Str × PyVal)) (c : ClauseRec),
      c ∈ clauses → (clauses.map (·.id)).Nodup →
      getKey (clauses.foldl (fun a cl => setKey a cl.id (f cl)) acc) c.id =
        some (f c) := by
  intro clauses
  induction clauses with
  | nil => intro acc c hc; exact absurd hc (List.not_mem_nil c)
  | cons d rest ih =>
    intro acc c hc hnd
    have hnd' : (rest.map (·.id)).Nodup := (List.nodup_cons.mp hnd).2
    have hdid : d.id ∉ rest.map (·.id) := (List.nodup_cons.mp hnd).1
    rcases List.mem_cons.mp hc with rfl | hcr
    · -- the clause is the head: later folds never touch its key
      have hpres : ∀ (a : List (Str × PyVal)),
          (∀ cl ∈ rest, cl.id ≠ c.id) →
          getKey (rest.foldl (fun a cl => setKey a cl.id (f cl)) a) c.id =
            getKey a c.id := by
        clear ih hc hnd hnd' hdid
        induction rest with
        | nil => intro a _; rfl
        | cons e tl ihe =>
          intro a hne
          have h1 : e.id ≠ c.id := hne e (List.mem_cons_self _ _)
          simp only [List.foldl_cons]
          rw [ihe _ (fun cl hcl => hne cl (List.mem_cons_of_mem _ hcl))]
          exact getKey_setKey_ne a e.id c.id (f e) h1
      simp only [List.foldl_cons]
      rw [hpres _ (fun cl hcl h => hdid (h ▸ List.mem_map_of_mem (·.id) hcl))]
      exact getKey_setKey acc c.id (f c)
    · simp only [List.foldl_cons]
      exact ih _ c hcr hnd'

/-- The recorded error fallback is not the warning finding the dead
branch meant to record. -/
theorem reasoningError_ne_warning :
    reasoningErrorFinding unhashableDictMsg ≠ reasoningWarningFinding := by
  intro h
  simp only [reasoningErrorFinding, reasoningWarningFinding, unhashableDictMsg,
    PyVal.obj.injEq, List.cons.injEq, Prod.mk.injEq, PyVal.str.injEq] at h
  obtain ⟨⟨-, h1⟩, -⟩ := h
  exact absurd h1 (by decide)

/-- C10: for every clause whose LLM call returns text containing no
JSON object substring, the finding recorded by the Compliance Reasoning
stage is the error fallback
`{status: error, risk_level: high, reason: "Analysis error: unhashable
type: 'dict'", suggested_fix: "Contact support."}` — the `else` branch
written to record the `{status: warning, risk_level: medium}` finding
never produces one, because its set-literal construction raises
`TypeError` and control falls to the exception handler; the stage's
stored findings map reflects this per clause. -/
theorem C10_reasoning_parse_failure :
    (∀ (rGen : Str → LLMResult) (jsonLoads : JsonParser) (c : ClauseRec)
       (response : Str),
      rGen c.id = .ok response →
      extractJson response = none →
      reasoningFinding rGen jsonLoads c =
        reasoningErrorFinding unhashableDictMsg ∧
      reasoningFinding rGen jsonLoads c ≠ reasoningWarningFinding) ∧
    (∀ (rGen : Str → LLMResult) (jsonLoads : JsonParser)
       (st : ContractState) (c : ClauseRec),
      c ∈ st.clauses → (st.clauses.map (·.id)).Nodup →
      getKey (reasoningProcess rGen jsonLoads st).compliance_findings c.id =
        some (reasoningFinding rGen jsonLoads c)) := by
  constructor
  · intro rGen jsonLoads c response hg hx
    have h : reasoningFinding rGen jsonLoads c =
        reasoningErrorFinding unhashableDictMsg := by
      unfold reasoningFinding
      simp only [hg, hx]
    exact ⟨h, h ▸ reasoningError_ne_warning⟩
  · intro rGen jsonLoads st c hc hnd
    unfold reasoningProcess
    exact foldl_setKey_lookup _ st.clauses [] c hc hnd

/-- Witness for C10: a concrete clause whose call returns prose with no
braces gets the error-fallback finding, also through the stage. -/
theorem C10_reasoning_parse_failure_witness :
    reasoningFinding (fun _ => .ok (lit "I could not produce JSON."))
      (fun _ => .ok .null) { id := lit "c1" } =
      reasoningErrorFinding unhashableDictMsg ∧
    getKey (reasoningProcess (fun _ => .ok (lit "I could not produce JSON."))
        (fun _ => .ok .null)
        { clauses := [{ id := lit "c1" }] }).compliance_findings (lit "c1") =
      some (reasoningFinding (fun _ => .ok (lit "I could not produce JSON."))
        (fun _ => .ok .null) { id := lit "c1" }) :=
  ⟨(C10_reasoning_parse_failure.1
      (fun _ => .ok (lit "I could not produce JSON.")) (fun _ => .ok .null)
      { id := lit "c1" } (lit "I could not produce JSON.") rfl (by decide)).1,
   C10_reasoning_parse_failure.2
     (fun _ => .ok (lit "I could not produce JSON.")) (fun _ => .ok .null)
     { clauses := [{ id := lit "c1" }] }
     { id := lit "c1" } (List.mem_singleton.mpr rfl) (by simp)⟩

/-! ## C7: Drafting Orchestrator fallback (corrected) -/

/-- When the drafted clauses consist of exactly the Generation stage's
error clause, Self-Review takes its skip branch and only logs. -/
theorem review_on_error_clause (o : DraftOracle) (st : ContractState) (e : Str)
    (h : st.drafted_clauses =
      [{ title := lit "Error",
         text := lit "Contract generation failed: " ++ e ++ lit ". Please try again.",
         ctype := lit "error" }]) :
    reviewProcess o st =
      addAudit st (lit "SelfReview") (lit "Skip")
        (lit "Skipping review of error clause") := by
  have h1 : ¬(st.drafted_clauses.isEmpty = true) := by rw [h]; simp
  have h2 : st.drafted_clauses.length = 1 ∧
      ((st.drafted_clauses.head?.map (·.ctype)).getD [] = lit "error") := by
    rw [h]; exact ⟨rfl, rfl⟩
  unfold reviewProcess
  rw [if_neg h1, if_pos h2]

/-- When the Generation stage's LLM call raises, the staged pipeline
assembles exactly the generation error clause as the contract. -/
theorem stagedState_gen_error (o : DraftOracle) (raw : Str)
    (md : List (Str × PyVal)) (e : Str) (hg : o.generationGen = .error e) :
    (stagedState o raw md).final_contract =
      lit "Contract generation failed: " ++ e ++ lit ". Please try again." := by
  unfold stagedState
  dsimp only
  have h4 : ∀ st : ContractState, generationProcess o st =
      addAudit { st with drafted_clauses :=
        [{ title := lit "Error",
           text := lit "Contract generation failed: " ++ e ++ lit ". Please try again.",
           ctype := lit "error" }] }
        (lit "Generation") (lit "Error") (lit "LLM generation failed: " ++ e) := by
    intro st
    unfold generationProcess
    simp only [hg]
  rw [h4]
  rw [review_on_error_clause o _ e (by simp [addAudit])]
  simp [addAudit, pyJoin, List.intercalate]

/-- The Python string `"Contract generation failed: "` is 28 characters
long (so the staged error clause is never empty). -/
theorem gen_error_text_ne_nil (e : Str) :
    lit "Contract generation failed: " ++ e ++ lit ". Please try again." ≠ [] := by
  intro hq
  have hl := congrArg List.length hq
  simp only [List.length_append, List.length_nil] at hl
  have h28 : (lit "Contract generation failed: ").length = 28 := by decide
  omega

/-- C7 (amended): if the assembled staged `final_contract` is empty or
under 100 characters, `run` discards it, records a `Fallback` audit
entry and issues the single consolidated fallback call; if that
fallback call fails, `run` still returns a state (it cannot raise)
whose `final_contract` is a human-readable error message and whose
audit log ends with `Total Failure` then `End`; if the fallback
succeeds its response becomes the contract under a `Fallback Success`
entry; and when the Generation stage's call raises, the staged contract
is the stage's own non-empty error clause — so the audit log gains a
`Fallback Success`/`Total Failure` entry exactly when that error clause
is shorter than 100 characters, and `final_contract` is non-empty
unless the fallback succeeded with empty response text. -/
theorem C7_orchestrator_fallback :
    ∀ (o : DraftOracle) (raw : Str) (md : List (Str × PyVal)),
      (((stagedState o raw md).final_contract = [] ∨
          (stagedState o raw md).final_contract.length < 100) →
        orchestratorRun o raw md =
          addAudit
            (runFallback o
              (addAudit (stagedState o raw md)
                (lit "DraftingOrchestrator") (lit "Fallback")
                (lit "Error: Agent pipeline produced insufficient content")))
            (lit "DraftingOrchestrator") (lit "End")
            (lit "Drafting process completed")) ∧
      (¬((stagedState o raw md).final_contract = [] ∨
          (stagedState o raw md).final_contract.length < 100) →
        orchestratorRun o raw md =
          addAudit (stagedState o raw md)
            (lit "DraftingOrchestrator") (lit "End")
            (lit "Drafting process completed")) ∧
      (∀ e : Str,
        ((stagedState o raw md).final_contract = [] ∨
          (stagedState o raw md).final_contract.length < 100) →
        o.fallbackGen = .error e →
        (orchestratorRun o raw md).final_contract =
          lit "Error: Could not generate contract. " ++ e ∧
        (orchestratorRun o raw md).final_contract ≠ [] ∧
        (orchestratorRun o raw md).audit_log =
          (stagedState o raw md).audit_log ++
            [⟨lit "DraftingOrchestrator", lit "Fallback",
              lit "Error: Agent pipeline produced insufficient content"⟩,
             ⟨lit "DraftingOrchestrator", lit "Total Failure", e⟩,
             ⟨lit "DraftingOrchestrator", lit "End",
              lit "Drafting process completed"⟩]) ∧
      (∀ r : Str,
        ((stagedState o raw md).final_contract = [] ∨
          (stagedState o raw md).final_contract.length < 100) →
        o.fallbackGen = .ok r →
        (orchestratorRun o raw md).final_contract = r ∧
        (orchestratorRun o raw md).audit_log =
          (stagedState o raw md).audit_log ++
            [⟨lit "DraftingOrchestrator", lit "Fallback",
              lit "Error: Agent pipeline produced insufficient content"⟩,
             ⟨lit "DraftingOrchestrator", lit "Fallback Success",
              lit "Contract generated via fallback LLM call"⟩,
             ⟨lit "DraftingOrchestrator", lit "End",
              lit "Drafting process completed"⟩]) ∧
      (∀ e : Str, o.generationGen = .error e →
        (stagedState o raw md).final_contract =
          lit "Contract generation failed: " ++ e ++ lit ". Please try again." ∧
        (stagedState o raw md).final_contract ≠ []) := by
  intro o raw md
  refine ⟨?_, ?_, ?_, ?_, ?_⟩
  · intro h
    unfold orchestratorRun
    rw [if_pos h]
  · intro h
    unfold orchestratorRun
    rw [if_neg h]
  · intro e h hf
    unfold orchestratorRun
    rw [if_pos h]
    unfold runFallback
    rw [hf]
    refine ⟨rfl, ?_, by simp [addAudit]⟩
    intro hq
    have hl := congrArg List.length hq
    simp only [addAudit, List.length_append, List.length_nil] at hl
    have h36 : (lit "Error: Could not generate contract. ").length = 36 := by decide
    omega
  · intro r h hf
    unfold orchestratorRun
    rw [if_pos h]
    unfold runFallback
    rw [hf]
    exact ⟨rfl, by simp [addAudit]⟩
  · intro e hg
    exact ⟨stagedState_gen_error o raw md e hg,
      (stagedState_gen_error o raw md e hg) ▸ gen_error_text_ne_nil e⟩

/-- The oracle of the counterexample run: every stage's LLM call raises,
the generation failure message is 60 characters long, so the assembled
staged error clause reaches 107 characters. -/
def longGenFailOracle : DraftOracle :=
  { intentGen := .error (lit "x")
    policyGen := .error (lit "x")
    templateGen := .error (lit "x")
    generationGen :=
      .error (lit "xxxxxxxxxxxxxxxxxxxxxxxxxxxxxxxxxxxxxxxxxxxxxxxxxxxxxxxxxxxx")
    reviewGen := .error (lit "x")
    fallbackGen := .ok (lit "never consulted")
    jsonLoads := fun _ => .error (lit "parse error") }

/-- Counterexample to C7 as stated: with the Generation stage's
external call raising on every attempt (a 60-character error message),
the returned state's audit log contains neither a `Fallback Success`
nor a `Total Failure` entry — the generation error clause is 107
characters long, so the whole-pipeline fallback never runs. -/
theorem C7_counterexample_no_fallback_entry :
    longGenFailOracle.generationGen =
      .error (lit "xxxxxxxxxxxxxxxxxxxxxxxxxxxxxxxxxxxxxxxxxxxxxxxxxxxxxxxxxxxx") ∧
    ((orchestratorRun longGenFailOracle (lit "draft a services contract")
        []).audit_log.any
      (fun en => en.action == lit "Fallback Success" ||
        en.action == lit "Total Failure")) = false :=
  ⟨rfl, by decide⟩

/-- Witness for C7 (amended): with a short generation failure the
fallback branch runs; its own failure yields the readable error
contract and the `Total Failure` entry. -/
theorem C7_orchestrator_fallback_witness :
    (orchestratorRun
      { longGenFailOracle with
          generationGen := .error (lit "down"),
          fallbackGen := .error (lit "also down") }
      (lit "draft a services contract") []).final_contract =
      lit "Error: Could not generate contract. " ++ lit "also down" :=
  ((C7_orchestrator_fallback
      { longGenFailOracle with
          generationGen := .error (lit "down"),
          fallbackGen := .error (lit "also down") }
      (lit "draft a services contract") []).2.2.1
    (lit "also down") (by right; decide) rfl).1

/-! ## Trimming toolkit for the Clause Segmenter claims -/

/-- `dropWhile` is idempotent. -/
theorem dropWhile_idem {α : Type} (p : α → Bool) (l : List α) :
    (l.dropWhile p).dropWhile p = l.dropWhile p := by
  induction l with
  | nil => rfl
  | cons a t ih =>
    by_cases h : p a = true
    · simpa [List.dropWhile, h] using ih
    · simp [List.dropWhile, h]

/-- `dropWhile` returns a suffix. -/
theorem dropWhile_is_sfx {α : Type} (p : α → Bool) (l : List α) :
    ∃ t, t ++ l.dropWhile p = l := by
  induction l with
  | nil => exact ⟨[], rfl⟩
  | cons a t ih =>
    by_cases h : p a = true
    · obtain ⟨u, hu⟩ := ih
      exact ⟨a :: u, by simp [List.dropWhile, h, hu]⟩
    · exact ⟨[], by simp [List.dropWhile, h]⟩

/-- A list fixed by `dropWhile` has a head not satisfying the predicate. -/
theorem head_of_dropWhile_fix {α : Type} {p : α → Bool} {a : α} {t : List α}
    (h : (a :: t).dropWhile p = a :: t) : p a = false := by
  by_cases hp : p a = true
  · have hlen := congrArg List.length h
    rw [List.dropWhile_cons_of_pos hp] at hlen
    have := dropWhile_len_le p t
    simp at hlen
    omega
  · simpa using hp

/-- Each prefix of a list fixed by `dropWhile` is itself fixed. -/
theorem dropWhile_fix_of_prefix {α : Type} {p : α → Bool} {x y u : List α}
    (hu : u.dropWhile p = u) (hxy : x ++ y = u) : x.dropWhile p = x := by
  cases x with
  | nil => rfl
  | cons a t =>
    have : u = a :: (t ++ y) := by rw [← hxy]; simp
    rw [this] at hu
    exact List.dropWhile_cons_of_neg
      (by simp [head_of_dropWhile_fix hu])

/-- `pyStrip` leaves no leading whitespace behind. -/
theorem pyStrip_front_fix (s : Str) :
    (pyStrip s).dropWhile isPySpace = pyStrip s := by
  unfold pyStrip
  obtain ⟨t, ht⟩ := dropWhile_is_sfx isPySpace (s.dropWhile isPySpace).reverse
  have hpref : (t ++ (s.dropWhile isPySpace).reverse.dropWhile isPySpace).reverse
      = s.dropWhile isPySpace := by rw [ht, List.reverse_reverse]
  rw [List.reverse_append] at hpref
  exact dropWhile_fix_of_prefix (dropWhile_idem isPySpace s) hpref

/-- `pyStrip` leaves no trailing whitespace behind. -/
theorem pyStrip_back_fix (s : Str) :
    (pyStrip s).reverse.dropWhile isPySpace = (pyStrip s).reverse := by
  unfold pyStrip
  rw [List.reverse_reverse]
  exact dropWhile_idem isPySpace _

/-- A list with neither leading nor trailing whitespace is fixed by
`pyStrip`. -/
theorem pyStrip_of_fixes {s : Str}
    (hf : s.dropWhile isPySpace = s)
    (hb : s.reverse.dropWhile isPySpace = s.reverse) :
    pyStrip s = s := by
  unfold pyStrip
  rw [hf, hb, List.reverse_reverse]

/-- `pyStrip` is idempotent (Python `s.strip().strip() == s.strip()`). -/
theorem pyStrip_idem (s : Str) : pyStrip (pyStrip s) = pyStrip s :=
  pyStrip_of_fixes (pyStrip_front_fix s) (pyStrip_back_fix s)

/-- Joining two non-empty trimmed strings with one interior space is
again trimmed (the accumulation step of strategy 5). -/
theorem pyStrip_append_space {a b : Str}
    (ha : pyStrip a = a) (hb : pyStrip b = b)
    (hna : a ≠ []) (hnb : b ≠ []) :
    pyStrip (a ++ ' ' :: b) = a ++ ' ' :: b := by
  apply pyStrip_of_fixes
  · cases a with
    | nil => exact absurd rfl hna
    | cons c t =>
      have hfa : (c :: t).dropWhile isPySpace = c :: t := by
        have h := pyStrip_front_fix (c :: t)
        rwa [ha] at h
      exact List.dropWhile_cons_of_neg
        (by simp [head_of_dropWhile_fix hfa])
  · have hrb : b.reverse.dropWhile isPySpace = b.reverse := by
      have h := pyStrip_back_fix b
      rwa [hb] at h
    cases hbrev : b.reverse with
    | nil => exact absurd (by simpa using hbrev) hnb
    | cons d u =>
      rw [hbrev] at hrb
      have : (a ++ ' ' :: b).reverse = d :: (u ++ ' ' :: a.reverse) := by
        rw [List.reverse_append]
        simp [hbrev]
      rw [this]
      exact List.dropWhile_cons_of_neg
        (by simp [head_of_dropWhile_fix hrb])

/-! ## C3: Clause Segmenter cascade (corrected) -/

/-- Appending a sub-60-character line to a non-empty merge run extends
the last accumulated clause instead of starting a new one. -/
theorem mergeGo_append_short (y : Str) (hy : y.length < 60) :
    ∀ (xs acc : List Str) (cur : Str), cur ≠ [] →
      ∃ pre last, mergeGo acc cur xs = pre ++ [last] ∧
        mergeGo acc cur (xs ++ [y]) = pre ++ [last ++ ' ' :: y] := by
  intro xs
  induction xs with
  | nil =>
    intro acc cur hcur
    refine ⟨acc, cur, ?_, ?_⟩
    · simp [mergeGo, hcur]
    · simp [mergeGo, hy, hcur]
  | cons x xs ih =>
    intro acc cur hcur
    by_cases hx : x.length < 60
    · have hcond : x.length < 60 ∧ cur ≠ [] := ⟨hx, hcur⟩
      obtain ⟨pre, last, h1, h2⟩ := ih acc (cur ++ ' ' :: x) (by simp)
      exact ⟨pre, last, by simpa [mergeGo, hcond] using h1,
        by simpa [mergeGo, hcond] using h2⟩
    · have hxne : x ≠ [] := by
        intro hx0; rw [hx0] at hx; simp at hx
      obtain ⟨pre, last, h1, h2⟩ := ih (acc ++ [cur]) x hxne
      have hcond : ¬(x.length < 60 ∧ cur ≠ []) := fun hc => hx hc.1
      exact ⟨pre, last, by simpa [mergeGo, hcond, hcur, hx] using h1,
        by simpa [mergeGo, hcond, hcur, hx] using h2⟩

/-- Every clause produced by the strategy-5 merge is trimmed and
non-empty, provided the incoming lines are. -/
theorem mergeGo_trimmed :
    ∀ (xs acc : List Str) (cur : Str),
      (∀ x ∈ acc, pyStrip x = x ∧ x ≠ []) →
      pyStrip cur = cur →
      (∀ x ∈ xs, pyStrip x = x ∧ x ≠ []) →
      ∀ y ∈ mergeGo acc cur xs, pyStrip y = y ∧ y ≠ [] := by
  intro xs
  induction xs with
  | nil =>
    intro acc cur hacc hcur _ y hy
    unfold mergeGo at hy
    by_cases hc : cur ≠ []
    · rw [if_pos hc] at hy
      rcases List.mem_append.mp hy with h | h
      · exact hacc y h
      · rw [List.mem_singleton.mp h]
        exact ⟨hcur, hc⟩
    · rw [if_neg hc] at hy
      exact hacc y hy
  | cons x xs ih =>
    intro acc cur hacc hcur hxs y hy
    have hx := hxs x (List.mem_cons_self _ _)
    have hxs' : ∀ z ∈ xs, pyStrip z = z ∧ z ≠ [] :=
      fun z hz => hxs z (List.mem_cons_of_mem _ hz)
    unfold mergeGo at hy
    by_cases hcond : x.length < 60 ∧ cur ≠ []
    · rw [if_pos hcond] at hy
      exact ih acc (cur ++ ' ' :: x)
        hacc (pyStrip_append_space hcur hx.1 hcond.2 hx.2) hxs' y hy
    · rw [if_neg hcond] at hy
      by_cases hc : cur ≠ []
      · rw [if_pos hc] at hy
        refine ih (acc ++ [cur]) x ?_ hx.1 hxs' y hy
        intro z hz
        rcases List.mem_append.mp hz with h | h
        · exact hacc z h
        · rw [List.mem_singleton.mp h]; exact ⟨hcur, hc⟩
      · rw [if_neg hc] at hy
        exact ih acc x hacc hx.1 hxs' y hy

/-- Elements of a `map pyStrip` image are trimmed. -/
theorem mem_map_pyStrip {l : List Str} {c : Str}
    (h : c ∈ l.map pyStrip) : pyStrip c = c := by
  obtain ⟨x, -, rfl⟩ := List.mem_map.mp h
  exact pyStrip_idem x

/-- Elements of `lineClauses`/`paragraphClauses` are trimmed and
non-empty. -/
theorem mem_strip_filter {l : List Str} {c : Str}
    (h : c ∈ (l.map pyStrip).filter (· ≠ [])) :
    pyStrip c = c ∧ c ≠ [] := by
  have hm := List.mem_of_mem_filter h
  have hf := List.of_mem_filter h
  exact ⟨mem_map_pyStrip hm, by simpa using hf⟩

/-- Every candidate produced by `_split_clauses` on a trimmed text is
itself trimmed (each strategy strips its matches; the merge keeps
trimmed strings trimmed; the fallback returns the trimmed text). -/
theorem splitClauses_trimmed (t : Str) (ht : pyStrip t = t) :
    ∀ c ∈ splitClauses t, pyStrip c = c := by
  intro c hc
  unfold splitClauses at hc
  dsimp only at hc
  split_ifs at hc with h1 h2 h3 h4 h5 h6
  · exact mem_map_pyStrip hc
  · exact mem_map_pyStrip hc
  · exact mem_map_pyStrip hc
  · exact (mem_strip_filter hc).1
  · exact (mergeGo_trimmed _ [] []
      (by intro z hz; exact absurd hz (List.not_mem_nil z)) rfl
      (fun z hz => mem_strip_filter hz) c hc).1
  · rw [List.mem_singleton.mp hc]; exact ht
  · exact absurd hc (List.not_mem_nil c)

/-- The preprocessed text is trimmed (preprocessing ends in `strip`). -/
theorem preprocessText_trimmed (x : Str) :
    pyStrip (preprocessText x) = preprocessText x := by
  unfold preprocessText
  dsimp only
  exact pyStrip_idem _

/-- C3 (amended): `_split_clauses` tries its five strategies in the
fixed order numbered / lettered / keyword-headed / blank-line
paragraphs / merged single lines, each only when every earlier strategy
fell at or below its threshold (3, 3, 2, 2, 1), the first strategy to
clear its threshold supplies the candidates; when no strategy clears
its threshold a non-empty text is returned whole as a single clause
while an empty text yields no clause; and in strategy 5 a line under 60
characters extends the accumulating clause instead of opening a new
one. -/
theorem C3_split_cascade :
    ∀ t : Str,
      ((numberedClauses t).length > 3 →
        splitClauses t = numberedClauses t) ∧
      (¬(numberedClauses t).length > 3 →
        (letteredClauses t).length > 3 →
        splitClauses t = letteredClauses t) ∧
      (¬(numberedClauses t).length > 3 →
        ¬(letteredClauses t).length > 3 →
        (sectionClauses t).length > 2 →
        splitClauses t = sectionClauses t) ∧
      (¬(numberedClauses t).length > 3 →
        ¬(letteredClauses t).length > 3 →
        ¬(sectionClauses t).length > 2 →
        (paragraphClauses t).length > 2 →
        splitClauses t = paragraphClauses t) ∧
      (¬(numberedClauses t).length > 3 →
        ¬(letteredClauses t).length > 3 →
        ¬(sectionClauses t).length > 2 →
        ¬(paragraphClauses t).length > 2 →
        (lineClauses t).length > 1 →
        splitClauses t = mergeLines (lineClauses t)) ∧
      (¬(numberedClauses t).length > 3 →
        ¬(letteredClauses t).length > 3 →
        ¬(sectionClauses t).length > 2 →
        ¬(paragraphClauses t).length > 2 →
        ¬(lineClauses t).length > 1 →
        t ≠ [] →
        splitClauses t = [t]) ∧
      (¬(numberedClauses t).length > 3 →
        ¬(letteredClauses t).length > 3 →
        ¬(sectionClauses t).length > 2 →
        ¬(paragraphClauses t).length > 2 →
        ¬(lineClauses t).length > 1 →
        t = [] →
        splitClauses t = []) ∧
      (∀ (x : Str) (xs : List Str) (y : Str),
        x ≠ [] → y.length < 60 →
        ∃ pre last, mergeLines (x :: xs) = pre ++ [last] ∧
          mergeLines ((x :: xs) ++ [y]) = pre ++ [last ++ ' ' :: y]) := by
  intro t
  refine ⟨?_, ?_, ?_, ?_, ?_, ?_, ?_, ?_⟩
  · intro h1
    unfold splitClauses; dsimp only
    rw [if_pos h1]
  · intro h1 h2
    unfold splitClauses; dsimp only
    rw [if_neg h1, if_pos h2]
  · intro h1 h2 h3
    unfold splitClauses; dsimp only
    rw [if_neg h1, if_neg h2, if_pos h3]
  · intro h1 h2 h3 h4
    unfold splitClauses; dsimp only
    rw [if_neg h1, if_neg h2, if_neg h3, if_pos h4]
  · intro h1 h2 h3 h4 h5
    unfold splitClauses; dsimp only
    rw [if_neg h1, if_neg h2, if_neg h3, if_neg h4, if_pos h5]
  · intro h1 h2 h3 h4 h5 h6
    unfold splitClauses; dsimp only
    rw [if_neg h1, if_neg h2, if_neg h3, if_neg h4, if_neg h5, if_pos h6]
  · intro h1 h2 h3 h4 h5 h6
    unfold splitClauses; dsimp only
    rw [if_neg h1, if_neg h2, if_neg h3, if_neg h4, if_neg h5,
      if_neg (by simp [h6])]
  · intro x xs y hx hy
    have hstep : ∀ l : List Str, mergeLines (x :: l) = mergeGo [] x l := by
      intro l
      show mergeGo [] [] (x :: l) = mergeGo [] x l
      cases l with
      | nil => simp [mergeGo]
      | cons a t => simp [mergeGo]
    obtain ⟨pre, last, hA, hB⟩ := mergeGo_append_short y hy xs [] x hx
    refine ⟨pre, last, by rw [hstep xs]; exact hA, ?_⟩
    have : (x :: xs) ++ [y] = x :: (xs ++ [y]) := rfl
    rw [this, hstep (xs ++ [y])]
    exact hB

/-- Counterexample to C3 as stated: on whitespace-only input the
preprocessed text is empty, no strategy clears its threshold, and the
fallback returns the empty list — not the whole preprocessed text as a
single clause. -/
theorem C3_counterexample_empty_text :
    preprocessText (lit " ") = [] ∧
    (numberedClauses (preprocessText (lit " "))).length ≤ 3 ∧
    (letteredClauses (preprocessText (lit " "))).length ≤ 3 ∧
    (sectionClauses (preprocessText (lit " "))).length ≤ 2 ∧
    (paragraphClauses (preprocessText (lit " "))).length ≤ 2 ∧
    (lineClauses (preprocessText (lit " "))).length ≤ 1 ∧
    splitClauses (preprocessText (lit " ")) = [] ∧
    splitClauses (preprocessText (lit " ")) ≠ [preprocessText (lit " ")] := by
  decide

/-- Witness for C3 (amended): scenario A — four numbered lines — makes
strategy 1 supply the candidates, and appending a short line to a merge
run extends its last clause. -/
theorem C3_split_cascade_witness :
    splitClauses (preprocessText (lit "1. Term. This agreement runs for 12 months.\n2. Payment. Fees are due monthly.\n3. Termination. Either party may terminate with 30 days notice.\n4. Governing Law. Laws of Delaware apply.")) =
      numberedClauses (preprocessText (lit "1. Term. This agreement runs for 12 months.\n2. Payment. Fees are due monthly.\n3. Termination. Either party may terminate with 30 days notice.\n4. Governing Law. Laws of Delaware apply.")) ∧
    (∃ pre last,
      mergeLines [lit "This opening line is deliberately longer than sixty characters total."] =
        pre ++ [last] ∧
      mergeLines [lit "This opening line is deliberately longer than sixty characters total.",
        lit "short tail"] =
        pre ++ [last ++ ' ' :: lit "short tail"]) :=
  ⟨(C3_split_cascade _).1 (by decide),
   (C3_split_cascade []).2.2.2.2.2.2.2
     (lit "This opening line is deliberately longer than sixty characters total.")
     [] (lit "short tail") (by decide) (by decide)⟩

/-! ## C4: Clause Segmenter post-filter -/

/-- The filter loop never returns more than `MAX_CLAUSES` clauses. -/
theorem filterGo_len :
    ∀ (cands acc : List Str), acc.length < MAX_CLAUSES →
      (filterGo acc cands).length ≤ MAX_CLAUSES := by
  intro cands
  induction cands with
  | nil => intro acc h; unfold filterGo; omega
  | cons c rest ih =>
    intro acc h
    unfold filterGo
    split_ifs with hskip hlen hhdr hboil
    · exact ih acc h
    · exact ih acc h
    · exact ih acc h
    · exact ih acc h
    · dsimp only
      split
      next hcap =>
        simp only [List.length_append, List.length_cons, List.length_nil]
        omega
      next hcap =>
        refine ih (acc ++ [pyStrip c]) ?_
        simp only [ge_iff_le, not_le, List.length_append, List.length_cons,
          List.length_nil] at hcap ⊢
        omega

/-- Every clause the filter loop accepts satisfies the three checks,
provided the candidates are trimmed (they are — `_split_clauses` strips
every candidate). -/
theorem filterGo_mem :
    ∀ (cands acc : List Str),
      (∀ c ∈ acc, MIN_CLAUSE_LENGTH ≤ c.length ∧
        isHeaderOnly c = false ∧ isBoilerplateNoise c = false) →
      (∀ c ∈ cands, pyStrip c = c) →
      ∀ c ∈ filterGo acc cands,
        MIN_CLAUSE_LENGTH ≤ c.length ∧
        isHeaderOnly c = false ∧ isBoilerplateNoise c = false := by
  intro cands
  induction cands with
  | nil => intro acc hacc _ c hc; exact hacc c hc
  | cons x rest ih =>
    intro acc hacc htr c hc
    have hxtr := htr x (List.mem_cons_self _ _)
    have hrest : ∀ z ∈ rest, pyStrip z = z :=
      fun z hz => htr z (List.mem_cons_of_mem _ hz)
    unfold filterGo at hc
    split_ifs at hc with hskip hlen hhdr hboil
    · exact ih acc hacc hrest c hc
    · exact ih acc hacc hrest c hc
    · exact ih acc hacc hrest c hc
    · exact ih acc hacc hrest c hc
    · have hnew : ∀ z ∈ acc ++ [pyStrip x],
          MIN_CLAUSE_LENGTH ≤ z.length ∧
          isHeaderOnly z = false ∧ isBoilerplateNoise z = false := by
        intro z hz
        rcases List.mem_append.mp hz with h | h
        · exact hacc z h
        · rw [List.mem_singleton.mp h, hxtr]
          exact ⟨by omega, by simpa using hhdr, by simpa using hboil⟩
      dsimp only at hc
      split at hc
      next => exact hnew c hc
      next => exact ih (acc ++ [pyStrip x]) hnew hrest c hc

/-- C4: every clause in the Clause Segmenter's output is at least 20
characters long, is neither header-only nor boilerplate noise, and the
output never exceeds 200 clauses (for any candidate list at all, the
filter stops accepting once 200 clauses are kept). -/
theorem C4_filter_guarantees :
    (∀ text : Str,
      (∀ c ∈ clauseAgentRun text,
        MIN_CLAUSE_LENGTH ≤ c.length ∧
        isHeaderOnly c = false ∧ isBoilerplateNoise c = false) ∧
      (clauseAgentRun text).length ≤ MAX_CLAUSES) ∧
    (∀ cands : List Str, (filterClauses cands).length ≤ MAX_CLAUSES) := by
  constructor
  · intro text
    unfold clauseAgentRun
    by_cases h0 : text = []
    · rw [if_pos h0]
      exact ⟨fun c hc => absurd hc (List.not_mem_nil c), by simp [MAX_CLAUSES]⟩
    · rw [if_neg h0]
      unfold filterClauses
      constructor
      · exact filterGo_mem _ []
          (fun c hc => absurd hc (List.not_mem_nil c))
          (splitClauses_trimmed _ (preprocessText_trimmed text))
      · exact filterGo_len _ [] (by simp [MAX_CLAUSES])
  · intro cands
    exact filterGo_len cands [] (by simp [MAX_CLAUSES])

/-- Witness for C4: the first clause of scenario A is accepted and
satisfies every post-filter guarantee. -/
theorem C4_filter_guarantees_witness :
    MIN_CLAUSE_LENGTH ≤ (lit "1. Term. This agreement runs for 12 months.").length ∧
    isHeaderOnly (lit "1. Term. This agreement runs for 12 months.") = false ∧
    isBoilerplateNoise (lit "1. Term. This agreement runs for 12 months.") = false :=
  (C4_filter_guarantees.1
    (lit "1. Term. This agreement runs for 12 months.\n2. Payment. Fees are due monthly.\n3. Termination. Either party may terminate with 30 days notice.\n4. Governing Law. Laws of Delaware apply.")).1
    (lit "1. Term. This agreement runs for 12 months.") (by decide)

end LegalContractAI
